import Mathlib

/-!
Verification development for the ingestion & validation pipeline of the
flight-data analyzer repository.

The embedded code is `src/data_parser.py`: the schema-discovery routine
`discover_subsystems` and the validation pipeline `load_and_validate_data`
(read the CSV, check the four core columns, parse timestamps and drop rows
whose timestamp does not parse, replace the sentinel value -999.0 in numeric
columns, coerce object columns to numeric, drop rows with missing core data,
and assemble a report).

Modelling decisions:

* A raw CSV field is modelled as already lexed: `RawCell.num q` is a token
  that lexes as the number `q`, `RawCell.text s` a token that does not, and
  `RawCell.empty` an empty field.  Numbers are rationals: every decimal
  token is exactly representable and the sentinel comparison `== -999.0`
  is exact equality.
* `read_csv` reproduces pandas dtype inference: a column all of whose
  fields are numeric or empty becomes a `float` column (empty fields turn
  into NaN, modelled as `Cell.na`); any other column becomes an `obj`
  column whose fields pandas keeps as strings.  In an `obj` column a
  numeric-looking token is represented as `Cell.num q` so that a later
  `to_numeric` can recover its value; the `obj` dtype records that pandas
  holds the cell as text.
* `pd.to_datetime(..., errors='coerce')` and the date formatting used when
  a table is re-serialized are library functions outside the repository;
  they enter the embedding as an environment `Env` of abstract parsing and
  printing functions.  A date string never lexes as a number, so a printed
  timestamp is serialized as a `RawCell.text`.
* Frames are column-oriented: a `Frame` is a list of named, dtyped columns;
  a well-formed frame is `Aligned` (all columns have the same length).
  Row-wise operations (`dropna` with a column subset) filter every column
  through the same row mask.
* Python's `sorted(list(set s))` is the ascending enumeration of the
  distinct elements, embedded as insertion sort after `dedup`.
-/

namespace FlightData

/-- CORE_COLUMNS from the source: the four mandatory columns. -/
def CORE_COLUMNS : List String :=
  ["Timestamp", "POS_Latitude_deg", "POS_Longitude_deg", "POS_Altitude_ft"]

/-- REDACTED_DATA_MARKER = -999.0 from the source. -/
def REDACTED_DATA_MARKER : ℚ := -999

/-- A character of the regex class `[A-Z0-9]`. -/
def isUpperDigit (c : Char) : Bool := c.isUpper || c.isDigit

/-- Python's `a <= b` on strings: lexicographic comparison by code point. -/
def lexLe : List Char → List Char → Bool
  | [], _ => true
  | _ :: _, [] => false
  | a :: as, b :: bs => if a = b then lexLe as bs else decide (a < b)

/-- Python's string comparison lifted to `String`. -/
def strLe (a b : String) : Bool := lexLe a.data b.data

/-- The ordering relation used by Python's `sorted` on strings. -/
def strLeR (a b : String) : Prop := strLe a b = true

instance : DecidableRel strLeR := fun a b => instDecidableEqBool (strLe a b) true

/-- Python's `s.startswith(pre)`. -/
def strStartsWith (s pre : String) : Bool := pre.data.isPrefixOf s.data

/-- The regex match `^([A-Z0-9]+)_` of the source applied to a column name:
the maximal leading run of upper-case letters and digits, required nonempty
and followed by an underscore.  (Backtracking to a shorter run can never
succeed: a shorter run ends before a character of the class, which is not
the required underscore, so the maximal-run formulation is exact.) -/
def matchColPattern (s : String) : Option String :=
  let run := s.data.takeWhile isUpperDigit
  match s.data.drop run.length with
  | '_' :: _ => if run = [] then none else some ⟨run⟩
  | _ => none

/-- Python's `sorted(list(s))` for a set `s` collected from a list:
the ascending enumeration of the distinct elements. -/
def pySortedSet (l : List String) : List String :=
  List.insertionSort strLeR l.dedup

/-- `discover_subsystems` from the source: extract the `^([A-Z0-9]+)_`
match of every column name; a match starting with `"PL"` goes into the
payload set, any other match into the subsystem set; return both sets
sorted. -/
def discover_subsystems (dfColumns : List String) : List String × List String :=
  let pfxs := dfColumns.filterMap matchColPattern
  let subsystems := pfxs.filter (fun p => !(strStartsWith p "PL"))
  let payloads := pfxs.filter (fun p => strStartsWith p "PL")
  (pySortedSet subsystems, pySortedSet payloads)

/-- A raw CSV field, already lexed. -/
inductive RawCell where
  | num (q : ℚ)
  | text (s : String)
  | empty
deriving DecidableEq, Repr

/-- A named raw CSV column. -/
structure RawCol where
  name : String
  cells : List RawCell
deriving DecidableEq, Repr

/-- A raw CSV table: header-named columns of fields. -/
structure RawTable where
  cols : List RawCol
deriving DecidableEq, Repr

/-- Number of data rows of a raw table. -/
def RawTable.nRows (t : RawTable) : ℕ :=
  match t.cols with
  | [] => 0
  | c :: _ => c.cells.length

/-- A rectangular raw table: every column has the common row count. -/
def RawTable.Aligned (t : RawTable) : Prop :=
  ∀ c ∈ t.cols, c.cells.length = t.nRows

instance (t : RawTable) : Decidable t.Aligned :=
  List.decidableBAll _ t.cols

/-- A cell of a parsed frame: a number, a string, a parsed date-time, or
the missing marker (NaN/NaT). -/
inductive Cell where
  | num (q : ℚ)
  | str (s : String)
  | time (t : ℕ)
  | na
deriving DecidableEq, Repr

/-- Pandas column dtypes relevant to the pipeline. -/
inductive Dtype where
  | float
  | obj
  | datetime
deriving DecidableEq, Repr

/-- A frame column: name, dtype, cells. -/
structure Col where
  name : String
  dtype : Dtype
  cells : List Cell
deriving DecidableEq, Repr

/-- A pandas-style frame, column-oriented. -/
structure Frame where
  cols : List Col
deriving DecidableEq, Repr

/-- Number of rows of a frame. -/
def Frame.nRows (fr : Frame) : ℕ :=
  match fr.cols with
  | [] => 0
  | c :: _ => c.cells.length

/-- A rectangular frame. -/
def Frame.Aligned (fr : Frame) : Prop :=
  ∀ c ∈ fr.cols, c.cells.length = fr.nRows

instance (fr : Frame) : Decidable fr.Aligned :=
  List.decidableBAll _ fr.cols

/-- The header of a frame. -/
def Frame.colNames (fr : Frame) : List String := fr.cols.map Col.name

/-- The first column with a given name (`df[name]`). -/
def Frame.getCol (fr : Frame) (n : String) : Option Col :=
  fr.cols.find? (fun c => c.name == n)

/-- Whether a cell is the missing marker. -/
def Cell.isna : Cell → Bool
  | .na => true
  | _ => false

/-- Whether a cell is a number. -/
def Cell.isNum : Cell → Bool
  | .num _ => true
  | _ => false

/-- Whether a cell is a parsed date-time. -/
def Cell.isTime : Cell → Bool
  | .time _ => true
  | _ => false

/-- The environment of library functions outside the repository:
`pd.to_datetime` string and number parsing, and date formatting used when a
frame is written back to text. -/
structure Env where
  tsOfStr : String → Option ℕ
  tsOfNum : ℚ → Option ℕ
  strOfTs : ℕ → String

/-- Whether a raw field can belong to a numeric column. -/
def RawCell.numLike : RawCell → Bool
  | .num _ => true
  | .empty => true
  | .text _ => false

/-- Whether a raw field is a numeric token. -/
def RawCell.isNum : RawCell → Bool
  | .num _ => true
  | _ => false

/-- Whether a raw field is a non-numeric token. -/
def RawCell.isText : RawCell → Bool
  | .text _ => true
  | _ => false

/-- Reading a field of a numeric-inferred column. -/
def rawCellFloat : RawCell → Cell
  | .num q => .num q
  | .text _ => .na
  | .empty => .na

/-- Reading a field of an object-inferred column: tokens stay as pandas
strings; the numeric-looking ones keep their value for later coercion. -/
def rawCellObj : RawCell → Cell
  | .num q => .num q
  | .text s => .str s
  | .empty => .na

/-- Pandas `read_csv` dtype inference for one column. -/
def readCol (rc : RawCol) : Col :=
  if rc.cells.all RawCell.numLike then ⟨rc.name, .float, rc.cells.map rawCellFloat⟩
  else ⟨rc.name, .obj, rc.cells.map rawCellObj⟩

/-- Pandas `read_csv` on a lexed table. -/
def read_csv (t : RawTable) : Frame := ⟨t.cols.map readCol⟩

/-- `pd.to_datetime(cell, errors='coerce')`: parse failures and missing
values become NaT. -/
def toDatetimeCell (env : Env) : Cell → Cell
  | .num q =>
    match env.tsOfNum q with
    | some t => .time t
    | none => .na
  | .str s =>
    match env.tsOfStr s with
    | some t => .time t
    | none => .na
  | .time t => .time t
  | .na => .na

/-- `pd.to_datetime` applied to a whole column. -/
def toDatetimeCol (env : Env) (c : Col) : Col :=
  ⟨c.name, .datetime, c.cells.map (toDatetimeCell env)⟩

/-- Step 1 of the pipeline: `df['Timestamp'] = pd.to_datetime(df['Timestamp'],
errors='coerce')`. -/
def parseTimestamps (env : Env) (fr : Frame) : Frame :=
  ⟨fr.cols.map (fun c => if c.name = "Timestamp" then toDatetimeCol env c else c)⟩

/-- `df['Timestamp'].isnull().any()`. -/
def tsHasNa (fr : Frame) : Bool :=
  match fr.getCol "Timestamp" with
  | some c => c.cells.any Cell.isna
  | none => false

/-- Row mask for `df.dropna(subset=...)`: keep row `i` when no column named
in the subset is missing at `i`. -/
def rowOk (fr : Frame) (subset : List String) (i : ℕ) : Bool :=
  fr.cols.all (fun c => if c.name ∈ subset then !(c.cells.getD i .na).isna else true)

/-- Keep the cells at the positions where the mask is true. -/
def filterByMask : List Bool → List Cell → List Cell
  | true :: ms, c :: cs => c :: filterByMask ms cs
  | false :: ms, _ :: cs => filterByMask ms cs
  | _, _ => []

/-- `df.dropna(subset=subset)`. -/
def Frame.dropna (fr : Frame) (subset : List String) : Frame :=
  let mask := (List.range fr.nRows).map (rowOk fr subset)
  ⟨fr.cols.map (fun c => ⟨c.name, c.dtype, filterByMask mask c.cells⟩)⟩

/-- `(df[col] == REDACTED_DATA_MARKER).any()`. -/
def Col.hasMarker (c : Col) : Bool :=
  c.cells.any (fun x => x == Cell.num REDACTED_DATA_MARKER)

/-- Step 2 condition of the source: the column is numeric-dtyped
(`select_dtypes(include=np.number)`) and contains the sentinel. -/
def Col.isRedactable (c : Col) : Bool :=
  (c.dtype == Dtype.float) && c.hasMarker

/-- `df[col].replace(REDACTED_DATA_MARKER, np.nan)`. -/
def Col.redact (c : Col) : Col :=
  ⟨c.name, c.dtype, c.cells.map (fun x => if x == Cell.num REDACTED_DATA_MARKER then Cell.na else x)⟩

/-- Step 2 of the pipeline: replace the sentinel in every numeric column
that contains it and record those column names in source order. -/
def redactStep (fr : Frame) : Frame × List String :=
  (⟨fr.cols.map (fun c => if c.isRedactable then c.redact else c)⟩,
   (fr.cols.filter Col.isRedactable).map Col.name)

/-- `pd.to_numeric(cell, errors='coerce')` on an object column's cell. -/
def toNumericCell : Cell → Cell
  | .num q => .num q
  | .str _ => .na
  | .time _ => .na
  | .na => .na

/-- Step 3 of the pipeline: numeric coercion of every non-Timestamp object
column. -/
def coerceStep (fr : Frame) : Frame :=
  ⟨fr.cols.map (fun c =>
    if c.name != "Timestamp" && c.dtype == Dtype.obj then
      ⟨c.name, .float, c.cells.map toNumericCell⟩
    else c)⟩

/-- The validation report of the source. -/
structure Report where
  status : String
  warnings : List String
  subsystems_found : List String
  payloads_found : List String
  redacted_cols_found : List String
deriving DecidableEq, Repr

/-- The report as initialised at the top of `load_and_validate_data`. -/
def initReport : Report := ⟨"failure", [], [], [], []⟩

/-- The core column names absent from the frame header, in core order
(the list `missing_core` of the source). -/
def missingCore (fr : Frame) : List String :=
  CORE_COLUMNS.filter (fun c => !(fr.colNames.contains c))

/-- Python `repr` of a string without special characters. -/
def quoteStr (s : String) : String := "'" ++ s ++ "'"

/-- The element part of Python `str(list_of_strings)`. -/
def pyElems : List String → String
  | [] => ""
  | [x] => quoteStr x
  | x :: y :: xs => quoteStr x ++ ", " ++ pyElems (y :: xs)

/-- Python `str` of a list of plain strings, as interpolated by an f-string. -/
def pyListRepr (xs : List String) : String := "[" ++ pyElems xs ++ "]"

/-- The missing-core-columns warning of the source. -/
def missingCoreMsg (missing : List String) : String :=
  "Data is missing essential columns: " ++ pyListRepr missing

/-- The invalid-timestamps warning of the source. -/
def tsWarning : String := "Some timestamps were invalid and have been removed."

/-- The dropped-rows warning of the source. -/
def droppedRowsMsg (n : ℕ) : String :=
  "Dropped " ++ toString n ++ " rows due to missing core data."

/-- `load_and_validate_data` from the source, applied to a successfully
read table (the body after `pd.read_csv`): core-column check, timestamp
parsing and dropping, sentinel redaction, numeric coercion, core
completeness enforcement, schema discovery, report assembly. -/
def load_and_validate_data (env : Env) (raw : RawTable) : Option Frame × Report :=
  let df0 := read_csv raw
  let missing := missingCore df0
  if missing ≠ [] then
    (none, { initReport with warnings := [missingCoreMsg missing] })
  else
    let df1 := parseTimestamps env df0
    let dropTs := tsHasNa df1
    let df2 := if dropTs then df1.dropna ["Timestamp"] else df1
    let w1 := if dropTs then [tsWarning] else []
    let step2 := redactStep df2
    let df4 := coerceStep step2.1
    let rowsBefore := df4.nRows
    let df5 := df4.dropna CORE_COLUMNS
    let rowsAfter := df5.nRows
    let w2 := if rowsAfter < rowsBefore then [droppedRowsMsg (rowsBefore - rowsAfter)] else []
    let disc := discover_subsystems df5.colNames
    (some df5,
     { status := "success", warnings := w1 ++ w2,
       subsystems_found := disc.1, payloads_found := disc.2,
       redacted_cols_found := step2.2 })

/-- `load_and_validate_data` with its exception behaviour made explicit.
In the source the `try/except` block wraps only `pd.read_csv`; the
cleaning steps (lines 63-90) run outside it, so an exception raised by any
of them propagates to the caller.  `readRes` is the outcome of
`pd.read_csv`; `procExn` is an oracle stating whether the pandas
operations of the cleaning phase raise (and with what message) on this
invocation. -/
def load_and_validate_with_exc (env : Env) (procExn : Option String)
    (readRes : Except String RawTable) : Except String (Option Frame × Report) :=
  match readRes with
  | .error e => .ok (none, { initReport with warnings := ["Failed to read file: " ++ e] })
  | .ok raw =>
    if missingCore (read_csv raw) ≠ [] then
      .ok (load_and_validate_data env raw)
    else
      match procExn with
      | some e => .error e
      | none => .ok (load_and_validate_data env raw)

/-- The frame after timestamp parsing (step 1), for a table whose core
columns are present. -/
def stage1 (env : Env) (raw : RawTable) : Frame :=
  parseTimestamps env (read_csv raw)

/-- The frame after the conditional invalid-timestamp drop. -/
def stage2 (env : Env) (raw : RawTable) : Frame :=
  if tsHasNa (stage1 env raw) then (stage1 env raw).dropna ["Timestamp"] else stage1 env raw

/-- The frame after sentinel redaction and numeric coercion (steps 2-3). -/
def stage4 (env : Env) (raw : RawTable) : Frame :=
  coerceStep (redactStep (stage2 env raw)).1

/-- The final frame returned on the success path (after step 4). -/
def stage5 (env : Env) (raw : RawTable) : Frame :=
  (stage4 env raw).dropna CORE_COLUMNS

/-- Writing one cell back to delimited text: numbers print as numeric
tokens, missing values as empty fields, date-times as date strings (which
never lex as numbers). -/
def serializeCell (env : Env) : Cell → RawCell
  | .num q => .num q
  | .str s => .text s
  | .time t => .text (env.strOfTs t)
  | .na => .empty

/-- Re-serializing a frame as delimited text. -/
def Frame.serialize (env : Env) (fr : Frame) : RawTable :=
  ⟨fr.cols.map (fun c => ⟨c.name, c.cells.map (serializeCell env)⟩)⟩

/-- A concrete environment for witnesses and counterexamples: date strings
are unary (`t` repetitions of `'T'`), so parsing and printing are exact
inverses by construction. -/
def env0 : Env where
  tsOfStr := fun s => if s.data.all (fun c => c == 'T') then some s.length else none
  tsOfNum := fun _ => none
  strOfTs := fun t => ⟨List.replicate t 'T'⟩

/-- A well-formed two-row input: all core columns present, all timestamps
parseable under `env0`, no sentinel values, numeric core cells. -/
def rawWF : RawTable :=
  ⟨[⟨"Timestamp", [.text "TTT", .text "TTTT"]⟩,
    ⟨"POS_Latitude_deg", [.num 1, .num 2]⟩,
    ⟨"POS_Longitude_deg", [.num 3, .num 4]⟩,
    ⟨"POS_Altitude_ft", [.num 5, .num 6]⟩,
    ⟨"GNC_Roll_deg", [.num 7, .num 8]⟩]⟩

/-- The frame produced by validating `rawWF` under `env0`. -/
def frWF : Frame :=
  ⟨[⟨"Timestamp", .datetime, [.time 3, .time 4]⟩,
    ⟨"POS_Latitude_deg", .float, [.num 1, .num 2]⟩,
    ⟨"POS_Longitude_deg", .float, [.num 3, .num 4]⟩,
    ⟨"POS_Altitude_ft", .float, [.num 5, .num 6]⟩,
    ⟨"GNC_Roll_deg", .float, [.num 7, .num 8]⟩]⟩

/-- A three-row input whose second timestamp does not parse under `env0`
and whose other columns are clean. -/
def rawTsBad : RawTable :=
  ⟨[⟨"Timestamp", [.text "TTT", .text "bad", .text "T"]⟩,
    ⟨"POS_Latitude_deg", [.num 1, .num 2, .num 7]⟩,
    ⟨"POS_Longitude_deg", [.num 3, .num 4, .num 8]⟩,
    ⟨"POS_Altitude_ft", [.num 5, .num 6, .num 9]⟩]⟩

/-- A two-row input with a mixed text/number column `GNC_Mode` whose second
field is the numeric token -999.0.  The column is object-inferred, so the
redaction step skips it and the numeric coercion step afterwards turns the
token back into the number -999.0 in the output. -/
def rawMixed : RawTable :=
  ⟨[⟨"Timestamp", [.text "TTT", .text "TTTT"]⟩,
    ⟨"POS_Latitude_deg", [.num 1, .num 2]⟩,
    ⟨"POS_Longitude_deg", [.num 3, .num 4]⟩,
    ⟨"POS_Altitude_ft", [.num 5, .num 6]⟩,
    ⟨"GNC_Mode", [.text "NAV", .num (-999)]⟩]⟩

/-- A two-row input with an inherently textual payload status column. -/
def rawTextCol : RawTable :=
  ⟨[⟨"Timestamp", [.text "TTT", .text "TTTT"]⟩,
    ⟨"POS_Latitude_deg", [.num 1, .num 2]⟩,
    ⟨"POS_Longitude_deg", [.num 3, .num 4]⟩,
    ⟨"POS_Altitude_ft", [.num 5, .num 6]⟩,
    ⟨"PL_GMTI_Status", [.text "ACTIVE", .text "SEARCHING"]⟩]⟩

/-- A one-row input missing `POS_Altitude_ft` (and only it). -/
def rawMissingAlt : RawTable :=
  ⟨[⟨"Timestamp", [.text "TTT"]⟩,
    ⟨"POS_Latitude_deg", [.num 1]⟩,
    ⟨"POS_Longitude_deg", [.num 3]⟩]⟩

/-- A two-row input with a numeric subsystem column containing the
sentinel value. -/
def rawSentinel : RawTable :=
  ⟨[⟨"Timestamp", [.text "TTT", .text "TTTT"]⟩,
    ⟨"POS_Latitude_deg", [.num 1, .num 2]⟩,
    ⟨"POS_Longitude_deg", [.num 3, .num 4]⟩,
    ⟨"POS_Altitude_ft", [.num 5, .num 6]⟩,
    ⟨"GNC_Roll_deg", [.num (-999), .num 8]⟩]⟩

/-! ### Properties of the lexicographic string order -/

theorem lexLe_total : ∀ a b, lexLe a b = true ∨ lexLe b a = true
  | [], _ => Or.inl rfl
  | _ :: _, [] => Or.inr rfl
  | a :: as, b :: bs => by
    by_cases h : a = b
    · subst h
      simpa [lexLe] using lexLe_total as bs
    · rcases lt_or_gt_of_ne h with hlt | hgt
      · left
        simp [lexLe, h, hlt]
      · right
        simp [lexLe, Ne.symm h, hgt]

theorem lexLe_trans : ∀ a b c, lexLe a b = true → lexLe b c = true → lexLe a c = true
  | [], _, _, _, _ => rfl
  | _ :: _, [], _, h, _ => by cases h
  | _ :: _, _ :: _, [], _, h => by cases h
  | a :: as, b :: bs, c :: cs, h1, h2 => by
    by_cases hab : a = b
    · subst hab
      by_cases hac : a = c
      · subst hac
        simp only [lexLe, if_pos rfl] at h1 h2 ⊢
        exact lexLe_trans as bs cs h1 h2
      · simp only [lexLe, if_neg hac] at h2 ⊢
        exact h2
    · by_cases hbc : b = c
      · subst hbc
        simp only [lexLe, if_neg hab] at h1 ⊢
        exact h1
      · simp only [lexLe, if_neg hab, if_neg hbc, decide_eq_true_eq] at h1 h2
        have hac : a < c := lt_trans h1 h2
        simp [lexLe, ne_of_lt hac, hac]

theorem lexLe_antisymm : ∀ a b, lexLe a b = true → lexLe b a = true → a = b
  | [], [], _, _ => rfl
  | [], _ :: _, _, h => by cases h
  | _ :: _, [], h, _ => by cases h
  | a :: as, b :: bs, h1, h2 => by
    by_cases hab : a = b
    · subst hab
      simp only [lexLe, if_pos rfl] at h1 h2
      rw [lexLe_antisymm as bs h1 h2]
    · simp only [lexLe, if_neg hab, if_neg (Ne.symm hab), decide_eq_true_eq] at h1 h2
      exact absurd h2 (not_lt_of_gt h1)

theorem string_eq_of_data_eq {a b : String} (h : a.data = b.data) : a = b := by
  cases a
  cases b
  exact congrArg String.mk h

instance : IsTotal String strLeR := ⟨fun a b => lexLe_total a.data b.data⟩

instance : IsTrans String strLeR := ⟨fun a b c => lexLe_trans a.data b.data c.data⟩

instance : IsAntisymm String strLeR :=
  ⟨fun a b h1 h2 => string_eq_of_data_eq (lexLe_antisymm a.data b.data h1 h2)⟩

/-! ### Properties of `pySortedSet` -/

theorem pySortedSet_sorted (l : List String) : (pySortedSet l).Sorted strLeR :=
  List.sorted_insertionSort strLeR l.dedup

theorem pySortedSet_perm (l : List String) : List.Perm (pySortedSet l) l.dedup :=
  List.perm_insertionSort strLeR l.dedup

theorem mem_pySortedSet {a : String} {l : List String} : a ∈ pySortedSet l ↔ a ∈ l := by
  rw [(pySortedSet_perm l).mem_iff, List.mem_dedup]

theorem pySortedSet_nodup (l : List String) : (pySortedSet l).Nodup :=
  (pySortedSet_perm l).nodup_iff.mpr l.nodup_dedup

theorem pySortedSet_eq_of_perm {l₁ l₂ : List String} (h : List.Perm l₁ l₂) :
    pySortedSet l₁ = pySortedSet l₂ :=
  List.eq_of_perm_of_sorted
    ((pySortedSet_perm l₁).trans (h.dedup.trans (pySortedSet_perm l₂).symm))
    (pySortedSet_sorted l₁) (pySortedSet_sorted l₂)

/-! ### Properties of the column-name pattern -/

theorem matchColPattern_no_underscore {s p : String} (h : matchColPattern s = some p) :
    '_' ∉ p.data := by
  simp only [matchColPattern] at h
  split at h
  · split at h
    · simp at h
    · intro hmem
      have hp := Option.some.inj h
      rw [← hp] at hmem
      have := List.mem_takeWhile_imp hmem
      simp [isUpperDigit] at this
  · simp at h

theorem mem_discover_subsystems_fst {cols : List String} {p : String} :
    p ∈ (discover_subsystems cols).1 ↔
      (∃ s ∈ cols, matchColPattern s = some p) ∧ strStartsWith p "PL" = false := by
  simp only [discover_subsystems, mem_pySortedSet, List.mem_filter, List.mem_filterMap,
    Bool.not_eq_true']

theorem mem_discover_subsystems_snd {cols : List String} {p : String} :
    p ∈ (discover_subsystems cols).2 ↔
      (∃ s ∈ cols, matchColPattern s = some p) ∧ strStartsWith p "PL" = true := by
  simp only [discover_subsystems, mem_pySortedSet, List.mem_filter, List.mem_filterMap]

/-- Claim C1 as stated is false on the code: the prefix captured from
`PL_GMTI_Status` is `PL`, not `PL_GMTI`, and `COMM` and `POS` are
classified as subsystems rather than excluded. -/
theorem claim1_counterexample :
    discover_subsystems ["PL_GMTI_Status", "GNC_Roll_deg", "COMM_TCDL_Margin_dB", "POS_Latitude_deg"]
        = (["COMM", "GNC", "POS"], ["PL"]) ∧
    "PL_GMTI" ∉
      (discover_subsystems
        ["PL_GMTI_Status", "GNC_Roll_deg", "COMM_TCDL_Margin_dB", "POS_Latitude_deg"]).2 ∧
    "COMM" ∈
      (discover_subsystems
        ["PL_GMTI_Status", "GNC_Roll_deg", "COMM_TCDL_Margin_dB", "POS_Latitude_deg"]).1 ∧
    "POS" ∈
      (discover_subsystems
        ["PL_GMTI_Status", "GNC_Roll_deg", "COMM_TCDL_Margin_dB", "POS_Latitude_deg"]).1 := by
  decide

/-- Claim C1, amended to what the code does: for any column-name list, a
column `PL_GMTI_Status` contributes the prefix `PL` (the match stops at the
first underscore), classified as a payload and not a subsystem;
`GNC_Roll_deg` contributes the subsystem `GNC`; `COMM_TCDL_Margin_dB` and
`POS_Latitude_deg` contribute `COMM` and `POS` to the subsystem list (they
are not excluded); and `PL_GMTI` never appears in either list. -/
theorem claim1_discovery (cols : List String) :
    ("PL_GMTI_Status" ∈ cols →
      "PL" ∈ (discover_subsystems cols).2 ∧ "PL" ∉ (discover_subsystems cols).1) ∧
    ("GNC_Roll_deg" ∈ cols → "GNC" ∈ (discover_subsystems cols).1) ∧
    ("COMM_TCDL_Margin_dB" ∈ cols → "COMM" ∈ (discover_subsystems cols).1) ∧
    ("POS_Latitude_deg" ∈ cols → "POS" ∈ (discover_subsystems cols).1) ∧
    "PL_GMTI" ∉ (discover_subsystems cols).1 ∧
    "PL_GMTI" ∉ (discover_subsystems cols).2 := by
  refine ⟨?_, ?_, ?_, ?_, ?_, ?_⟩
  · intro h
    constructor
    · exact mem_discover_subsystems_snd.mpr ⟨⟨_, h, by decide⟩, by decide⟩
    · intro hmem
      have := (mem_discover_subsystems_fst.mp hmem).2
      simp [strStartsWith, List.isPrefixOf] at this
  · intro h
    exact mem_discover_subsystems_fst.mpr ⟨⟨_, h, by decide⟩, by decide⟩
  · intro h
    exact mem_discover_subsystems_fst.mpr ⟨⟨_, h, by decide⟩, by decide⟩
  · intro h
    exact mem_discover_subsystems_fst.mpr ⟨⟨_, h, by decide⟩, by decide⟩
  · intro hmem
    obtain ⟨⟨s, _, hs⟩, _⟩ := mem_discover_subsystems_fst.mp hmem
    exact matchColPattern_no_underscore hs (by decide)
  · intro hmem
    obtain ⟨⟨s, _, hs⟩, _⟩ := mem_discover_subsystems_snd.mp hmem
    exact matchColPattern_no_underscore hs (by decide)

/-- Witness for `claim1_discovery` at a concrete column list. -/
theorem claim1_witness :
    ("PL_GMTI_Status" ∈ ["PL_GMTI_Status", "GNC_Roll_deg"] →
      "PL" ∈ (discover_subsystems ["PL_GMTI_Status", "GNC_Roll_deg"]).2 ∧
      "PL" ∉ (discover_subsystems ["PL_GMTI_Status", "GNC_Roll_deg"]).1) ∧
    ("GNC_Roll_deg" ∈ ["PL_GMTI_Status", "GNC_Roll_deg"] →
      "GNC" ∈ (discover_subsystems ["PL_GMTI_Status", "GNC_Roll_deg"]).1) ∧
    ("COMM_TCDL_Margin_dB" ∈ ["PL_GMTI_Status", "GNC_Roll_deg"] →
      "COMM" ∈ (discover_subsystems ["PL_GMTI_Status", "GNC_Roll_deg"]).1) ∧
    ("POS_Latitude_deg" ∈ ["PL_GMTI_Status", "GNC_Roll_deg"] →
      "POS" ∈ (discover_subsystems ["PL_GMTI_Status", "GNC_Roll_deg"]).1) ∧
    "PL_GMTI" ∉ (discover_subsystems ["PL_GMTI_Status", "GNC_Roll_deg"]).1 ∧
    "PL_GMTI" ∉ (discover_subsystems ["PL_GMTI_Status", "GNC_Roll_deg"]).2 :=
  claim1_discovery ["PL_GMTI_Status", "GNC_Roll_deg"]

/-- Claim C10: discovery is invariant under permutation of the column-name
list (duplicates included), and each discovered prefix appears at most once
in its (sorted) list. -/
theorem claim10_discovery_perm (cols₁ cols₂ : List String) (h : List.Perm cols₁ cols₂) :
    discover_subsystems cols₁ = discover_subsystems cols₂ ∧
    (discover_subsystems cols₁).1.Nodup ∧ (discover_subsystems cols₁).2.Nodup := by
  refine ⟨?_, pySortedSet_nodup _, pySortedSet_nodup _⟩
  have hfm := h.filterMap matchColPattern
  have h1 := pySortedSet_eq_of_perm (hfm.filter (fun p => !(strStartsWith p "PL")))
  have h2 := pySortedSet_eq_of_perm (hfm.filter (fun p => strStartsWith p "PL"))
  simp only [discover_subsystems, h1, h2]

/-- Witness for `claim10_discovery_perm` at a concrete permuted pair with a
duplicated name. -/
theorem claim10_witness :
    discover_subsystems ["GNC_Roll_deg", "PL_GMTI_Status", "GNC_Roll_deg"]
        = discover_subsystems ["PL_GMTI_Status", "GNC_Roll_deg", "GNC_Roll_deg"] ∧
    (discover_subsystems ["GNC_Roll_deg", "PL_GMTI_Status", "GNC_Roll_deg"]).1.Nodup ∧
    (discover_subsystems ["GNC_Roll_deg", "PL_GMTI_Status", "GNC_Roll_deg"]).2.Nodup :=
  claim10_discovery_perm _ _ (by decide)

/-! ### Exception behaviour (claim C3) -/

/-- Claim C3 as stated is false on the code: an unexpected failure in the
cleaning phase is not converted into a failure report — it propagates, since
the `try/except` in the source wraps only the file read. -/
theorem claim3_counterexample :
    load_and_validate_with_exc env0 (some "boom") (Except.ok rawWF) = Except.error "boom" := by
  rfl

/-- Claim C3, amended to what the code does: when the cleaning steps after
parsing raise, the exception propagates to the caller (the call does not
return normally); only a failure of the read itself is caught and converted
into an absent table plus a failure report with a read-failure message. -/
theorem claim3_exc (env : Env) (raw : RawTable) (e pe : String) (procExn : Option String)
    (hcore : missingCore (read_csv raw) = []) :
    load_and_validate_with_exc env (some e) (Except.ok raw) = Except.error e ∧
    load_and_validate_with_exc env procExn (Except.error pe)
      = Except.ok (none, { initReport with warnings := ["Failed to read file: " ++ pe] }) := by
  constructor
  · simp [load_and_validate_with_exc, hcore]
  · rfl

/-- Witness for `claim3_exc` at a concrete input. -/
theorem claim3_witness :
    load_and_validate_with_exc env0 (some "err") (Except.ok rawWF) = Except.error "err" ∧
    load_and_validate_with_exc env0 (some "err") (Except.error "nofile")
      = Except.ok (none, { initReport with warnings := ["Failed to read file: " ++ "nofile"] }) :=
  claim3_exc env0 rawWF "err" "nofile" (some "err") (by decide)

/-! ### The missing-core-columns branch (claim C2) -/

theorem string_data_append (a b : String) : (a ++ b).data = a.data ++ b.data := rfl

theorem infix_extend_after {l m : List Char} (n : List Char) (h : List.IsInfix l m) :
    List.IsInfix l (m ++ n) :=
  h.trans ⟨[], n, by simp⟩

theorem infix_extend_before {l m : List Char} (n : List Char) (h : List.IsInfix l m) :
    List.IsInfix l (n ++ m) :=
  h.trans ⟨n, [], by simp⟩

theorem infix_quoteStr (c : String) : List.IsInfix c.data (quoteStr c).data :=
  ⟨['\''], ['\''], by simp [quoteStr, string_data_append]⟩

theorem infix_pyElems {c : String} : ∀ (xs : List String), c ∈ xs →
    List.IsInfix c.data (pyElems xs).data
  | [], h => absurd h (List.not_mem_nil c)
  | [x], h => by
    rcases List.mem_singleton.mp h with rfl
    simpa [pyElems] using infix_quoteStr c
  | x :: y :: xs, h => by
    rcases List.mem_cons.mp h with rfl | h
    · have h1 := infix_quoteStr c
      simp only [pyElems, string_data_append, List.append_assoc]
      exact infix_extend_after _ h1
    · have h1 := infix_pyElems (y :: xs) h
      simp only [pyElems, string_data_append, List.append_assoc]
      exact infix_extend_before _ (infix_extend_before _ h1)

theorem infix_pyListRepr {c : String} {xs : List String} (h : c ∈ xs) :
    List.IsInfix c.data (pyListRepr xs).data := by
  have h1 := infix_pyElems xs h
  simp only [pyListRepr, string_data_append, List.append_assoc]
  exact infix_extend_before _ (infix_extend_after _ h1)

theorem infix_missingCoreMsg {c : String} {xs : List String} (h : c ∈ xs) :
    List.IsInfix c.data (missingCoreMsg xs).data := by
  simp only [missingCoreMsg, string_data_append]
  exact infix_extend_before _ (infix_pyListRepr h)

theorem mem_missingCore {c : String} {fr : Frame} :
    c ∈ missingCore fr ↔ c ∈ CORE_COLUMNS ∧ c ∉ fr.colNames := by
  simp [missingCore, List.mem_filter]

theorem load_missing_eq {env : Env} {raw : RawTable}
    (hne : missingCore (read_csv raw) ≠ []) :
    load_and_validate_data env raw =
      (none, { initReport with warnings := [missingCoreMsg (missingCore (read_csv raw))] }) := by
  unfold load_and_validate_data
  simp only [if_pos hne]

/-- Claim C2: whenever at least one core column is absent, the pipeline
returns an absent table and a failure report, and each absent core column's
name occurs inside a warning string. -/
theorem claim2_missing_core (env : Env) (raw : RawTable)
    (h : ∃ c ∈ CORE_COLUMNS, c ∉ (read_csv raw).colNames) :
    (load_and_validate_data env raw).1 = none ∧
    (load_and_validate_data env raw).2.status = "failure" ∧
    ∀ c ∈ CORE_COLUMNS, c ∉ (read_csv raw).colNames →
      ∃ w ∈ (load_and_validate_data env raw).2.warnings, List.IsInfix c.data w.data := by
  obtain ⟨c₀, hc₀, hn₀⟩ := h
  have hne : missingCore (read_csv raw) ≠ [] :=
    List.ne_nil_of_mem (mem_missingCore.mpr ⟨hc₀, hn₀⟩)
  rw [load_missing_eq hne]
  refine ⟨rfl, rfl, ?_⟩
  intro c hc hn
  exact ⟨missingCoreMsg (missingCore (read_csv raw)), List.mem_singleton.mpr rfl,
    infix_missingCoreMsg (mem_missingCore.mpr ⟨hc, hn⟩)⟩

/-- Witness for `claim2_missing_core`: an input missing `POS_Altitude_ft`. -/
theorem claim2_witness :
    (load_and_validate_data env0 rawMissingAlt).1 = none ∧
    (load_and_validate_data env0 rawMissingAlt).2.status = "failure" ∧
    ∀ c ∈ CORE_COLUMNS, c ∉ (read_csv rawMissingAlt).colNames →
      ∃ w ∈ (load_and_validate_data env0 rawMissingAlt).2.warnings, List.IsInfix c.data w.data :=
  claim2_missing_core env0 rawMissingAlt ⟨"POS_Altitude_ft", by decide, by decide⟩

/-! ### Mask and dropna toolkit -/

theorem filterByMask_nil_mask (l : List Cell) : filterByMask [] l = [] := by
  cases l <;> rfl

theorem filterByMask_nil_cells (m : List Bool) : filterByMask m [] = [] := by
  cases m with
  | nil => rfl
  | cons b ms => cases b <;> rfl

theorem filterByMask_length : ∀ (m : List Bool) (l : List Cell), l.length = m.length →
    (filterByMask m l).length = m.count true
  | [], l, _ => by simp [filterByMask_nil_mask]
  | _ :: _, [], h => by simp at h
  | true :: ms, c :: cs, h => by
    simp only [filterByMask, List.length_cons, List.count_cons] at *
    rw [filterByMask_length ms cs (by omega)]
    simp
  | false :: ms, c :: cs, h => by
    simp only [filterByMask, List.length_cons, List.count_cons] at *
    rw [filterByMask_length ms cs (by omega)]
    simp

theorem filterByMask_sublist : ∀ (m : List Bool) (l : List Cell),
    List.Sublist (filterByMask m l) l
  | [], l => by
    rw [filterByMask_nil_mask]
    exact List.nil_sublist l
  | _ :: _, [] => by
    rw [filterByMask_nil_cells]
  | true :: ms, c :: cs => List.Sublist.cons₂ c (filterByMask_sublist ms cs)
  | false :: ms, c :: cs => List.Sublist.cons c (filterByMask_sublist ms cs)

theorem filterByMask_all_true : ∀ (m : List Bool) (l : List Cell),
    (∀ b ∈ m, b = true) → l.length = m.length → filterByMask m l = l
  | [], [], _, _ => rfl
  | [], _ :: _, _, h => by simp at h
  | _ :: _, [], _, h => by simp at h
  | b :: ms, c :: cs, hall, h => by
    have hb : b = true := hall b (List.mem_cons_self b ms)
    subst hb
    simp only [filterByMask]
    rw [filterByMask_all_true ms cs (fun x hx => hall x (List.mem_cons_of_mem _ hx))
      (by simpa using h)]

theorem filterByMask_forall {P : Cell → Prop} : ∀ (m : List Bool) (l : List Cell),
    (∀ i, i < l.length → m.getD i false = true → P (l.getD i Cell.na)) →
    ∀ x ∈ filterByMask m l, P x
  | [], l, _, x, hx => by
    rw [filterByMask_nil_mask] at hx
    cases hx
  | _ :: _, [], _, x, hx => by
    rw [filterByMask_nil_cells] at hx
    cases hx
  | true :: ms, c :: cs, h, x, hx => by
    simp only [filterByMask] at hx
    rcases List.mem_cons.mp hx with rfl | hx
    · exact h 0 (by simp) rfl
    · exact filterByMask_forall ms cs (fun i hi hm => h (i + 1) (by simpa using hi) hm) x hx
  | false :: ms, c :: cs, h, x, hx => by
    simp only [filterByMask] at hx
    exact filterByMask_forall ms cs (fun i hi hm => h (i + 1) (by simpa using hi) hm) x hx

theorem rowOk_iff {fr : Frame} {subset : List String} {i : ℕ} :
    rowOk fr subset i = true ↔
      ∀ c ∈ fr.cols, c.name ∈ subset → (c.cells.getD i Cell.na).isna = false := by
  simp only [rowOk, List.all_eq_true]
  constructor
  · intro h c hc hs
    have h1 := h c hc
    rw [if_pos hs] at h1
    simpa using h1
  · intro h c hc
    by_cases hs : c.name ∈ subset
    · rw [if_pos hs]
      simpa using h c hc hs
    · rw [if_neg hs]

theorem getD_map_range {α : Type} {f : ℕ → α} {n i : ℕ} (h : i < n) (d : α) :
    ((List.range n).map f).getD i d = f i := by
  rw [List.getD_eq_getElem?_getD, List.getElem?_map, List.getElem?_range h]
  rfl

theorem dropna_colNames (fr : Frame) (subset : List String) :
    (fr.dropna subset).colNames = fr.colNames := by
  simp [Frame.dropna, Frame.colNames, List.map_map, Function.comp]

theorem dropna_nRows {fr : Frame} {subset : List String} (hAl : fr.Aligned) :
    (fr.dropna subset).nRows = ((List.range fr.nRows).map (rowOk fr subset)).count true := by
  rcases hfr : fr.cols with _ | ⟨c, cs⟩
  · have h0 : fr.nRows = 0 := by simp [Frame.nRows, hfr]
    simp [Frame.dropna, Frame.nRows, hfr, h0]
  · have hlen : c.cells.length = fr.nRows :=
      hAl c (by rw [hfr]; exact List.mem_cons_self _ _)
    have h1 : (fr.dropna subset).nRows =
        (filterByMask ((List.range fr.nRows).map (rowOk fr subset)) c.cells).length := by
      simp [Frame.dropna, Frame.nRows, hfr]
    rw [h1, filterByMask_length _ _ (by simp [hlen])]

theorem dropna_aligned {fr : Frame} {subset : List String} (hAl : fr.Aligned) :
    (fr.dropna subset).Aligned := by
  intro c hc
  rw [dropna_nRows hAl]
  simp only [Frame.dropna, List.mem_map] at hc
  obtain ⟨a, ha, rfl⟩ := hc
  exact filterByMask_length _ _ (by simp [hAl a ha])

theorem dropna_kept {fr : Frame} {subset : List String} (hAl : fr.Aligned) :
    ∀ c ∈ (fr.dropna subset).cols, c.name ∈ subset → ∀ x ∈ c.cells, x.isna = false := by
  intro c hc hs x hx
  simp only [Frame.dropna, List.mem_map] at hc
  obtain ⟨a, ha, rfl⟩ := hc
  refine filterByMask_forall (P := fun y => y.isna = false) _ _ ?_ x hx
  intro i hi hm
  have hilt : i < fr.nRows := by
    rw [← hAl a ha]
    exact hi
  rw [getD_map_range hilt] at hm
  exact rowOk_iff.mp hm a ha hs

theorem dropna_cells_sub {fr : Frame} {subset : List String} :
    ∀ c ∈ (fr.dropna subset).cols, ∃ a ∈ fr.cols,
      c.name = a.name ∧ c.dtype = a.dtype ∧ ∀ x ∈ c.cells, x ∈ a.cells := by
  intro c hc
  simp only [Frame.dropna, List.mem_map] at hc
  obtain ⟨a, ha, rfl⟩ := hc
  exact ⟨a, ha, rfl, rfl, fun x hx => (filterByMask_sublist _ _).subset hx⟩

theorem dropna_id {fr : Frame} {subset : List String} (hAl : fr.Aligned)
    (h : ∀ c ∈ fr.cols, c.name ∈ subset → ∀ x ∈ c.cells, x.isna = false) :
    fr.dropna subset = fr := by
  have hmask : ∀ b ∈ (List.range fr.nRows).map (rowOk fr subset), b = true := by
    intro b hb
    simp only [List.mem_map, List.mem_range] at hb
    obtain ⟨i, hi, rfl⟩ := hb
    rw [rowOk_iff]
    intro c hc hs
    have hil : i < c.cells.length := by
      rw [hAl c hc]
      exact hi
    rw [List.getD_eq_getElem _ _ hil]
    exact h c hc hs _ (List.getElem_mem hil)
  have hcols : ∀ c ∈ fr.cols,
      (⟨c.name, c.dtype,
        filterByMask ((List.range fr.nRows).map (rowOk fr subset)) c.cells⟩ : Col) = c := by
    intro c hc
    rw [filterByMask_all_true _ _ hmask (by simp [hAl c hc])]
  rcases fr with ⟨cols⟩
  simp only [Frame.dropna]
  congr 1
  rw [List.map_congr_left hcols]
  simp

/-! ### Step preservation lemmas -/

theorem readCol_name (rc : RawCol) : (readCol rc).name = rc.name := by
  unfold readCol
  split <;> rfl

theorem readCol_length (rc : RawCol) : (readCol rc).cells.length = rc.cells.length := by
  unfold readCol
  split <;> simp

theorem read_csv_colNames (t : RawTable) : (read_csv t).colNames = t.cols.map RawCol.name := by
  simp only [read_csv, Frame.colNames, List.map_map]
  exact List.map_congr_left fun a _ => readCol_name a

theorem read_csv_nRows (t : RawTable) : (read_csv t).nRows = t.nRows := by
  rcases ht : t.cols with _ | ⟨c, cs⟩
  · simp [read_csv, Frame.nRows, RawTable.nRows, ht]
  · simp [read_csv, Frame.nRows, RawTable.nRows, ht, readCol_length]

theorem read_csv_aligned {t : RawTable} (hAl : t.Aligned) : (read_csv t).Aligned := by
  intro c hc
  simp only [read_csv, List.mem_map] at hc
  obtain ⟨a, ha, rfl⟩ := hc
  rw [readCol_length, read_csv_nRows]
  exact hAl a ha

theorem parseF_name (env : Env) (c : Col) :
    (if c.name = "Timestamp" then toDatetimeCol env c else c).name = c.name := by
  split <;> rfl

theorem parseF_length (env : Env) (c : Col) :
    (if c.name = "Timestamp" then toDatetimeCol env c else c).cells.length = c.cells.length := by
  split <;> simp [toDatetimeCol]

theorem parseTimestamps_colNames (env : Env) (fr : Frame) :
    (parseTimestamps env fr).colNames = fr.colNames := by
  simp only [parseTimestamps, Frame.colNames, List.map_map]
  exact List.map_congr_left fun a _ => parseF_name env a

theorem parseTimestamps_nRows (env : Env) (fr : Frame) :
    (parseTimestamps env fr).nRows = fr.nRows := by
  rcases hfr : fr.cols with _ | ⟨c, cs⟩
  · simp [parseTimestamps, Frame.nRows, hfr]
  · simp [parseTimestamps, Frame.nRows, hfr, parseF_length]

theorem parseTimestamps_aligned {env : Env} {fr : Frame} (hAl : fr.Aligned) :
    (parseTimestamps env fr).Aligned := by
  intro c hc
  rw [parseTimestamps_nRows]
  simp only [parseTimestamps, List.mem_map] at hc
  obtain ⟨a, ha, rfl⟩ := hc
  rw [parseF_length]
  exact hAl a ha

theorem redactF_name (c : Col) : (if c.isRedactable then c.redact else c).name = c.name := by
  split <;> rfl

theorem redactF_dtype (c : Col) : (if c.isRedactable then c.redact else c).dtype = c.dtype := by
  split <;> rfl

theorem redactF_length (c : Col) :
    (if c.isRedactable then c.redact else c).cells.length = c.cells.length := by
  split <;> simp [Col.redact]

theorem redact_colNames (fr : Frame) : (redactStep fr).1.colNames = fr.colNames := by
  simp only [redactStep, Frame.colNames, List.map_map]
  exact List.map_congr_left fun a _ => redactF_name a

theorem redact_nRows (fr : Frame) : (redactStep fr).1.nRows = fr.nRows := by
  rcases hfr : fr.cols with _ | ⟨c, cs⟩
  · simp [redactStep, Frame.nRows, hfr]
  · simp [redactStep, Frame.nRows, hfr, redactF_length]

theorem redact_aligned {fr : Frame} (hAl : fr.Aligned) : (redactStep fr).1.Aligned := by
  intro c hc
  rw [redact_nRows]
  simp only [redactStep, List.mem_map] at hc
  obtain ⟨a, ha, rfl⟩ := hc
  rw [redactF_length]
  exact hAl a ha

theorem coerceF_name (c : Col) :
    (if c.name != "Timestamp" && c.dtype == Dtype.obj then
      (⟨c.name, .float, c.cells.map toNumericCell⟩ : Col) else c).name = c.name := by
  split <;> rfl

theorem coerceF_length (c : Col) :
    (if c.name != "Timestamp" && c.dtype == Dtype.obj then
      (⟨c.name, .float, c.cells.map toNumericCell⟩ : Col) else c).cells.length
      = c.cells.length := by
  split <;> simp

theorem coerce_colNames (fr : Frame) : (coerceStep fr).colNames = fr.colNames := by
  simp only [coerceStep, Frame.colNames, List.map_map]
  exact List.map_congr_left fun a _ => coerceF_name a

theorem coerce_nRows (fr : Frame) : (coerceStep fr).nRows = fr.nRows := by
  rcases hfr : fr.cols with _ | ⟨c, cs⟩
  · simp [coerceStep, Frame.nRows, hfr]
  · simp only [coerceStep, hfr, List.map_cons, Frame.nRows]
    exact coerceF_length c

theorem coerce_aligned {fr : Frame} (hAl : fr.Aligned) : (coerceStep fr).Aligned := by
  intro c hc
  rw [coerce_nRows]
  simp only [coerceStep, List.mem_map] at hc
  obtain ⟨a, ha, rfl⟩ := hc
  rw [coerceF_length]
  exact hAl a ha

/-- The success-path equation of the pipeline. -/
theorem load_ok_eq {env : Env} {raw : RawTable} (hMiss : missingCore (read_csv raw) = []) :
    load_and_validate_data env raw =
      (some (stage5 env raw),
       { status := "success",
         warnings := (if tsHasNa (stage1 env raw) then [tsWarning] else []) ++
           (if (stage5 env raw).nRows < (stage4 env raw).nRows then
             [droppedRowsMsg ((stage4 env raw).nRows - (stage5 env raw).nRows)] else []),
         subsystems_found := (discover_subsystems (stage5 env raw).colNames).1,
         payloads_found := (discover_subsystems (stage5 env raw).colNames).2,
         redacted_cols_found := (redactStep (stage2 env raw)).2 }) := by
  unfold load_and_validate_data stage5 stage4 stage2 stage1
  simp only [hMiss]
  rfl

/-! ### Cell-level facts -/

theorem cell_isNum_not_na {x : Cell} (h : x.isNum = true) : x.isna = false := by
  cases x <;> simp_all [Cell.isNum, Cell.isna]

theorem toDatetimeCell_shape (env : Env) (x : Cell) :
    (toDatetimeCell env x).isTime = true ∨ toDatetimeCell env x = Cell.na := by
  cases x <;> simp only [toDatetimeCell]
  · split <;> simp [Cell.isTime]
  · split <;> simp [Cell.isTime]
  · simp [Cell.isTime]
  · simp

theorem toDatetimeCell_not_num (env : Env) (x : Cell) (q : ℚ) :
    toDatetimeCell env x ≠ Cell.num q := by
  rcases toDatetimeCell_shape env x with h | h
  · intro hEq
    rw [hEq] at h
    simp [Cell.isTime] at h
  · intro hEq
    rw [hEq] at h
    cases h

theorem rawCellFloat_eq_num {r : RawCell} {q : ℚ} (h : rawCellFloat r = Cell.num q) :
    r = RawCell.num q := by
  cases r <;> simp_all [rawCellFloat]

theorem rawCellObj_eq_num {r : RawCell} {q : ℚ} (h : rawCellObj r = Cell.num q) :
    r = RawCell.num q := by
  cases r <;> simp_all [rawCellObj]

theorem tsHasNa_false_of {fr : Frame}
    (h : ∀ c ∈ fr.cols, c.name = "Timestamp" → ∀ x ∈ c.cells, x.isna = false) :
    tsHasNa fr = false := by
  unfold tsHasNa Frame.getCol
  cases hfind : fr.cols.find? (fun c => c.name == "Timestamp") with
  | none => rfl
  | some c =>
    have hc := List.mem_of_find?_eq_some hfind
    have hname : c.name = "Timestamp" := by
      have := List.find?_some hfind
      simpa using this
    rw [List.any_eq_false]
    intro x hx
    simp [h c hc hname x hx]

/-! ### No-sentinel propagation -/

theorem read_csv_no_marker {raw : RawTable}
    (hSent : ∀ rc ∈ raw.cols, ∀ x ∈ rc.cells, x ≠ RawCell.num REDACTED_DATA_MARKER) :
    ∀ c ∈ (read_csv raw).cols, ∀ x ∈ c.cells, x ≠ Cell.num REDACTED_DATA_MARKER := by
  intro c hc x hx hEq
  subst hEq
  simp only [read_csv, List.mem_map] at hc
  obtain ⟨rc, hrc, rfl⟩ := hc
  unfold readCol at hx
  split at hx
  · simp only [List.mem_map] at hx
    obtain ⟨r, hr, hr2⟩ := hx
    exact hSent rc hrc r hr (rawCellFloat_eq_num hr2)
  · simp only [List.mem_map] at hx
    obtain ⟨r, hr, hr2⟩ := hx
    exact hSent rc hrc r hr (rawCellObj_eq_num hr2)

theorem parse_no_marker {env : Env} {fr : Frame}
    (h : ∀ c ∈ fr.cols, ∀ x ∈ c.cells, x ≠ Cell.num REDACTED_DATA_MARKER) :
    ∀ c ∈ (parseTimestamps env fr).cols, ∀ x ∈ c.cells,
      x ≠ Cell.num REDACTED_DATA_MARKER := by
  intro c hc x hx
  simp only [parseTimestamps, List.mem_map] at hc
  obtain ⟨a, ha, rfl⟩ := hc
  by_cases hts : a.name = "Timestamp"
  · rw [if_pos hts] at hx
    simp only [toDatetimeCol, List.mem_map] at hx
    obtain ⟨y, _, rfl⟩ := hx
    exact toDatetimeCell_not_num env y _
  · rw [if_neg hts] at hx
    exact h a ha x hx

/-! ### Redaction as identity on marker-free frames -/

theorem isRedactable_false_of {c : Col}
    (h : ∀ x ∈ c.cells, x ≠ Cell.num REDACTED_DATA_MARKER) :
    c.isRedactable = false := by
  have hm : c.hasMarker = false := by
    rw [Col.hasMarker, List.any_eq_false]
    intro x hx
    simp [h x hx]
  simp [Col.isRedactable, hm]

theorem redactStep_id {fr : Frame}
    (h : ∀ c ∈ fr.cols, ∀ x ∈ c.cells, x ≠ Cell.num REDACTED_DATA_MARKER) :
    (redactStep fr).1 = fr ∧ (redactStep fr).2 = [] := by
  constructor
  · rcases fr with ⟨cols⟩
    simp only [redactStep]
    congr 1
    rw [List.map_congr_left (fun c hc => by
      rw [if_neg (by simp [isRedactable_false_of (h c hc)])])]
    simp
  · simp only [redactStep]
    rw [List.filter_eq_nil_iff.mpr (fun c hc => by simp [isRedactable_false_of (h c hc)])]
    rfl

/-! ### Core columns after reading -/

theorem readCol_core_float {rc : RawCol} (h : ∀ x ∈ rc.cells, x.isNum = true) :
    (readCol rc).dtype = Dtype.float ∧ ∀ x ∈ (readCol rc).cells, x.isNum = true := by
  have hnl : rc.cells.all RawCell.numLike = true := by
    rw [List.all_eq_true]
    intro x hx
    have := h x hx
    cases x <;> simp_all [RawCell.isNum, RawCell.numLike]
  unfold readCol
  rw [if_pos hnl]
  refine ⟨rfl, ?_⟩
  intro x hx
  simp only [List.mem_map] at hx
  obtain ⟨r, hr, rfl⟩ := hx
  have := h r hr
  cases r <;> simp_all [RawCell.isNum, rawCellFloat, Cell.isNum]

theorem coerceF_eq_self {c : Col} (h : c.name = "Timestamp" ∨ c.dtype ≠ Dtype.obj) :
    (if c.name != "Timestamp" && c.dtype == Dtype.obj then
      (⟨c.name, .float, c.cells.map toNumericCell⟩ : Col) else c) = c := by
  rcases h with h | h
  · rw [if_neg]
    simp [h]
  · rw [if_neg]
    simp [h]

theorem stage1_nRows (env : Env) (raw : RawTable) : (stage1 env raw).nRows = raw.nRows := by
  unfold stage1
  rw [parseTimestamps_nRows, read_csv_nRows]

theorem stage1_aligned {env : Env} {raw : RawTable} (hAl : raw.Aligned) :
    (stage1 env raw).Aligned :=
  parseTimestamps_aligned (read_csv_aligned hAl)

/-- A well-formed input (core columns present, all timestamps parse,
numeric core cells, no sentinel anywhere) validates successfully with no
warnings, no redacted columns, and an unchanged row count. -/
theorem load_wellformed (env : Env) (raw : RawTable)
    (hAl : raw.Aligned)
    (hMiss : missingCore (read_csv raw) = [])
    (hTs : ∀ c ∈ (stage1 env raw).cols, c.name = "Timestamp" → ∀ x ∈ c.cells, x.isna = false)
    (hCore : ∀ rc ∈ raw.cols, rc.name ∈ CORE_COLUMNS → rc.name ≠ "Timestamp" →
      ∀ x ∈ rc.cells, x.isNum = true)
    (hSent : ∀ rc ∈ raw.cols, ∀ x ∈ rc.cells, x ≠ RawCell.num REDACTED_DATA_MARKER) :
    (load_and_validate_data env raw).2.status = "success" ∧
    (load_and_validate_data env raw).2.warnings = [] ∧
    (load_and_validate_data env raw).2.redacted_cols_found = [] ∧
    ∃ fr, (load_and_validate_data env raw).1 = some fr ∧ fr.nRows = raw.nRows := by
  have htsf : tsHasNa (stage1 env raw) = false := tsHasNa_false_of hTs
  have hs2 : stage2 env raw = stage1 env raw := by simp [stage2, htsf]
  have hNM : ∀ c ∈ (stage1 env raw).cols, ∀ x ∈ c.cells,
      x ≠ Cell.num REDACTED_DATA_MARKER :=
    parse_no_marker (read_csv_no_marker hSent)
  obtain ⟨hrid, hrnil⟩ := redactStep_id hNM
  have hstage4 : stage4 env raw = coerceStep (stage1 env raw) := by
    unfold stage4
    rw [hs2, hrid]
  have H1 : ∀ c ∈ (stage1 env raw).cols, c.name ∈ CORE_COLUMNS →
      (∀ x ∈ c.cells, x.isna = false) ∧ (c.name ≠ "Timestamp" → c.dtype = Dtype.float) := by
    intro c hc hcore
    by_cases hts : c.name = "Timestamp"
    · exact ⟨hTs c hc hts, fun h => absurd hts h⟩
    · refine ⟨?_, fun _ => ?_⟩ <;>
      · simp only [stage1, parseTimestamps, List.mem_map] at hc
        obtain ⟨a, ha, rfl⟩ := hc
        have hats : a.name ≠ "Timestamp" := by
          rwa [parseF_name] at hts
        rw [if_neg hats] at hts hcore ⊢
        simp only [read_csv, List.mem_map] at ha
        obtain ⟨rc, hrc, rfl⟩ := ha
        rw [readCol_name] at hts hcore
        obtain ⟨hdt, hnum⟩ := readCol_core_float (hCore rc hrc hcore hts)
        first
        | exact fun x hx => cell_isNum_not_na (hnum x hx)
        | exact hdt
  have H4 : ∀ c ∈ (stage4 env raw).cols, c.name ∈ CORE_COLUMNS →
      ∀ x ∈ c.cells, x.isna = false := by
    rw [hstage4]
    intro c hc hcore
    simp only [coerceStep, List.mem_map] at hc
    obtain ⟨a, ha, rfl⟩ := hc
    rw [coerceF_name] at hcore
    obtain ⟨hna, hft⟩ := H1 a ha hcore
    by_cases hts : a.name = "Timestamp"
    · rw [coerceF_eq_self (Or.inl hts)]
      exact hna
    · rw [coerceF_eq_self (Or.inr (by rw [hft hts]; intro hEq; cases hEq))]
      exact hna
  have hal4 : (stage4 env raw).Aligned := by
    rw [hstage4]
    exact coerce_aligned (stage1_aligned hAl)
  have h5 : stage5 env raw = stage4 env raw := by
    unfold stage5
    exact dropna_id hal4 H4
  have hrows : (stage4 env raw).nRows = raw.nRows := by
    rw [hstage4, coerce_nRows, stage1_nRows]
  rw [load_ok_eq hMiss]
  refine ⟨rfl, ?_, ?_, stage5 env raw, rfl, ?_⟩
  · simp [htsf, h5]
  · show (redactStep (stage2 env raw)).2 = []
    rw [hs2]
    exact hrnil
  · rw [h5, hrows]

/-- Claim C5: a well-formed input — all four core columns present, only
parseable timestamps, no sentinel values, and no missing or non-numeric
cells in core columns — validates to a table with the input's row count
and a success report with empty warnings and empty redacted-columns list. -/
theorem claim5_wellformed (env : Env) (raw : RawTable)
    (hAl : raw.Aligned)
    (hMiss : missingCore (read_csv raw) = [])
    (hTs : ∀ c ∈ (stage1 env raw).cols, c.name = "Timestamp" → ∀ x ∈ c.cells, x.isna = false)
    (hCore : ∀ rc ∈ raw.cols, rc.name ∈ CORE_COLUMNS → rc.name ≠ "Timestamp" →
      ∀ x ∈ rc.cells, x.isNum = true)
    (hSent : ∀ rc ∈ raw.cols, ∀ x ∈ rc.cells, x ≠ RawCell.num REDACTED_DATA_MARKER) :
    (load_and_validate_data env raw).2.status = "success" ∧
    (load_and_validate_data env raw).2.warnings = [] ∧
    (load_and_validate_data env raw).2.redacted_cols_found = [] ∧
    ∃ fr, (load_and_validate_data env raw).1 = some fr ∧ fr.nRows = raw.nRows :=
  load_wellformed env raw hAl hMiss hTs hCore hSent

/-- Witness for `claim5_wellformed` on a concrete well-formed input. -/
theorem claim5_witness :
    (load_and_validate_data env0 rawWF).2.status = "success" ∧
    (load_and_validate_data env0 rawWF).2.warnings = [] ∧
    (load_and_validate_data env0 rawWF).2.redacted_cols_found = [] ∧
    ∃ fr, (load_and_validate_data env0 rawWF).1 = some fr ∧ fr.nRows = rawWF.nRows :=
  claim5_wellformed env0 rawWF (by decide) (by decide) (by decide) (by decide) (by decide)

/-! ### Stage bookkeeping -/

theorem stage1_colNames (env : Env) (raw : RawTable) :
    (stage1 env raw).colNames = (read_csv raw).colNames := by
  unfold stage1
  rw [parseTimestamps_colNames]

theorem stage2_colNames (env : Env) (raw : RawTable) :
    (stage2 env raw).colNames = (stage1 env raw).colNames := by
  unfold stage2
  split
  · rw [dropna_colNames]
  · rfl

theorem stage2_aligned {env : Env} {raw : RawTable} (hAl : raw.Aligned) :
    (stage2 env raw).Aligned := by
  unfold stage2
  split
  · exact dropna_aligned (stage1_aligned hAl)
  · exact stage1_aligned hAl

theorem stage4_colNames (env : Env) (raw : RawTable) :
    (stage4 env raw).colNames = (stage1 env raw).colNames := by
  unfold stage4
  rw [coerce_colNames, redact_colNames, stage2_colNames]

theorem stage4_aligned {env : Env} {raw : RawTable} (hAl : raw.Aligned) :
    (stage4 env raw).Aligned := by
  unfold stage4
  exact coerce_aligned (redact_aligned (stage2_aligned hAl))

theorem stage5_colNames (env : Env) (raw : RawTable) :
    (stage5 env raw).colNames = (read_csv raw).colNames := by
  unfold stage5
  rw [dropna_colNames, stage4_colNames, stage1_colNames]

/-! ### Timestamp cells stay time-or-missing through the pipeline -/

theorem tna_redactF {x : Cell} (h : (x.isTime || x.isna) = true) :
    ((if x == Cell.num REDACTED_DATA_MARKER then Cell.na else x).isTime
      || (if x == Cell.num REDACTED_DATA_MARKER then Cell.na else x).isna) = true := by
  split
  · rfl
  · exact h

theorem tna_toNumericCell {x : Cell} (h : (x.isTime || x.isna) = true) :
    ((toNumericCell x).isTime || (toNumericCell x).isna) = true := by
  cases x <;> simp_all [toNumericCell, Cell.isTime, Cell.isna]

theorem ts_tna_stage1 (env : Env) (raw : RawTable) :
    ∀ c ∈ (stage1 env raw).cols, c.name = "Timestamp" →
      ∀ x ∈ c.cells, (x.isTime || x.isna) = true := by
  intro c hc hts x hx
  simp only [stage1, parseTimestamps, List.mem_map] at hc
  obtain ⟨a, ha, rfl⟩ := hc
  by_cases h : a.name = "Timestamp"
  · rw [if_pos h] at hx
    simp only [toDatetimeCol, List.mem_map] at hx
    obtain ⟨y, _, rfl⟩ := hx
    rcases toDatetimeCell_shape env y with ht | ht
    · simp [ht]
    · simp [ht, Cell.isna]
  · rw [if_neg h] at hts
    exact absurd hts h

theorem ts_tna_stage2 (env : Env) (raw : RawTable) :
    ∀ c ∈ (stage2 env raw).cols, c.name = "Timestamp" →
      ∀ x ∈ c.cells, (x.isTime || x.isna) = true := by
  unfold stage2
  split
  · intro c hc hts x hx
    obtain ⟨a, ha, hname, _, hsub⟩ := dropna_cells_sub c hc
    exact ts_tna_stage1 env raw a ha (hname.symm.trans hts) x (hsub x hx)
  · exact ts_tna_stage1 env raw

theorem ts_tna_stage4 (env : Env) (raw : RawTable) :
    ∀ c ∈ (stage4 env raw).cols, c.name = "Timestamp" →
      ∀ x ∈ c.cells, (x.isTime || x.isna) = true := by
  unfold stage4
  intro c hc hts x hx
  simp only [coerceStep, List.mem_map] at hc
  obtain ⟨b, hb, rfl⟩ := hc
  rw [coerceF_name] at hts
  simp only [redactStep, List.mem_map] at hb
  obtain ⟨a, ha, rfl⟩ := hb
  rw [redactF_name] at hts
  have base := ts_tna_stage2 env raw a ha hts
  -- cells of the redacted column
  have hmid : ∀ y ∈ (if a.isRedactable = true then a.redact else a).cells,
      (y.isTime || y.isna) = true := by
    intro y hy
    by_cases hred : a.isRedactable = true
    · rw [if_pos hred] at hy
      simp only [Col.redact, List.mem_map] at hy
      obtain ⟨z, hz, rfl⟩ := hy
      exact tna_redactF (base z hz)
    · rw [if_neg hred] at hy
      exact base y hy
  by_cases hco : ((if a.isRedactable = true then a.redact else a).name != "Timestamp"
      && (if a.isRedactable = true then a.redact else a).dtype == Dtype.obj) = true
  · rw [if_pos hco] at hx
    simp only [List.mem_map] at hx
    obtain ⟨y, hy, rfl⟩ := hx
    exact tna_toNumericCell (hmid y hy)
  · rw [if_neg hco] at hx
    exact hmid x hx

theorem ts_tna_stage5 (env : Env) (raw : RawTable) :
    ∀ c ∈ (stage5 env raw).cols, c.name = "Timestamp" →
      ∀ x ∈ c.cells, (x.isTime || x.isna) = true := by
  intro c hc hts x hx
  have hc' : c ∈ ((stage4 env raw).dropna CORE_COLUMNS).cols := hc
  obtain ⟨a, ha, hname, _, hsub⟩ := dropna_cells_sub c hc'
  exact ts_tna_stage4 env raw a ha (hname.symm.trans hts) x (hsub x hx)

/-- Claim C6: on every successful validation the returned table's core
columns are present, hold no missing value in any row, and every Timestamp
cell is a parsed date-time. -/
theorem claim6_invariants (env : Env) (raw : RawTable) (fr : Frame)
    (hAl : raw.Aligned)
    (h : (load_and_validate_data env raw).1 = some fr)
    (_hs : (load_and_validate_data env raw).2.status = "success") :
    (∀ cn ∈ CORE_COLUMNS, cn ∈ fr.colNames) ∧
    ∀ c ∈ fr.cols, c.name ∈ CORE_COLUMNS →
      (∀ x ∈ c.cells, x.isna = false) ∧
      (c.name = "Timestamp" → ∀ x ∈ c.cells, x.isTime = true) := by
  by_cases hMiss : missingCore (read_csv raw) = []
  · have hfr : fr = stage5 env raw := by
      rw [load_ok_eq hMiss] at h
      exact (Option.some.inj h).symm
    subst hfr
    constructor
    · intro cn hcn
      have hmem : cn ∈ (read_csv raw).colNames := by
        by_contra hnot
        have hbad : cn ∈ missingCore (read_csv raw) := mem_missingCore.mpr ⟨hcn, hnot⟩
        rw [hMiss] at hbad
        cases hbad
      rw [stage5_colNames]
      exact hmem
    · intro c hc hcore
      have hc' : c ∈ ((stage4 env raw).dropna CORE_COLUMNS).cols := hc
      have hna : ∀ x ∈ c.cells, x.isna = false :=
        dropna_kept (stage4_aligned hAl) c hc' hcore
      refine ⟨hna, fun hts x hx => ?_⟩
      have h1 := ts_tna_stage5 env raw c hc hts x hx
      have h2 := hna x hx
      simpa [h2] using h1
  · rw [load_missing_eq hMiss] at h
    cases h

/-- Witness for `claim6_invariants` on a concrete successful validation. -/
theorem claim6_witness :
    (∀ cn ∈ CORE_COLUMNS, cn ∈ frWF.colNames) ∧
    ∀ c ∈ frWF.cols, c.name ∈ CORE_COLUMNS →
      (∀ x ∈ c.cells, x.isna = false) ∧
      (c.name = "Timestamp" → ∀ x ∈ c.cells, x.isTime = true) :=
  claim6_invariants env0 rawWF frWF (by decide) (by decide) (by decide)

/-! ### Counting dropped rows -/

theorem bool_eq_of_iff {a b : Bool} (h : a = true ↔ b = true) : a = b := by
  cases a <;> cases b <;> simp_all

theorem count_true_range_getD (g : Cell → Bool) (l : List Cell) :
    ((List.range l.length).map (fun i => g (l.getD i Cell.na))).count true = l.countP g := by
  induction l with
  | nil => rfl
  | cons c cs ih =>
    have h1 : (List.range (c :: cs).length).map (fun i => g ((c :: cs).getD i Cell.na))
        = g c :: (List.range cs.length).map (fun i => g (cs.getD i Cell.na)) := by
      rw [List.length_cons, List.range_succ_eq_map, List.map_cons, List.map_map]
      rfl
    rw [h1, List.count_cons, List.countP_cons, ih]
    cases hg : g c <;> simp

theorem countP_not_isna (l : List Cell) :
    l.countP (fun x => !x.isna) = l.length - l.count Cell.na := by
  induction l with
  | nil => rfl
  | cons c cs ih =>
    have hle : cs.count Cell.na ≤ cs.length := List.count_le_length Cell.na cs
    rw [List.countP_cons, List.length_cons, List.count_cons, ih]
    cases c <;> simp [Cell.isna] <;> omega

theorem unique_of_nodup_names {fr : Frame} (hnd : fr.colNames.Nodup) {tc : Col}
    (hmem : tc ∈ fr.cols) (htc : tc.name = "Timestamp") :
    ∀ c ∈ fr.cols, c.name = "Timestamp" → c = tc := by
  intro c hc hcn
  exact List.inj_on_of_nodup_map hnd hc hmem (by rw [hcn, htc])

theorem mask_count_single {fr : Frame} {tc : Col} (hAl : fr.Aligned)
    (hmem : tc ∈ fr.cols) (htc : tc.name = "Timestamp")
    (huniq : ∀ c ∈ fr.cols, c.name = "Timestamp" → c = tc) :
    ((List.range fr.nRows).map (rowOk fr ["Timestamp"])).count true
      = tc.cells.countP (fun x => !x.isna) := by
  have hlen : tc.cells.length = fr.nRows := hAl tc hmem
  have hpt : ∀ i, rowOk fr ["Timestamp"] i = !(tc.cells.getD i Cell.na).isna := by
    intro i
    apply bool_eq_of_iff
    rw [rowOk_iff]
    constructor
    · intro h
      have := h tc hmem (by simp [htc])
      simpa using this
    · intro h c hc hcs
      have hceq : c = tc := huniq c hc (List.mem_singleton.mp hcs)
      subst hceq
      simpa using h

  calc ((List.range fr.nRows).map (rowOk fr ["Timestamp"])).count true
      = ((List.range tc.cells.length).map
          (fun i => !(tc.cells.getD i Cell.na).isna)).count true := by
        rw [hlen]
        congr 1
        exact List.map_congr_left (fun i _ => hpt i)
    _ = tc.cells.countP (fun x => !x.isna) := count_true_range_getD (fun x => !x.isna) tc.cells

theorem tsHasNa_true_of {fr : Frame} {tc : Col}
    (hget : fr.getCol "Timestamp" = some tc) (h : tc.cells.count Cell.na ≠ 0) :
    tsHasNa fr = true := by
  unfold tsHasNa
  rw [hget, List.any_eq_true]
  exact ⟨Cell.na, List.count_pos_iff.mp (Nat.pos_of_ne_zero h), rfl⟩

theorem getCol_mem {fr : Frame} {n : String} {tc : Col} (hget : fr.getCol n = some tc) :
    tc ∈ fr.cols ∧ tc.name = n := by
  refine ⟨List.mem_of_find?_eq_some hget, ?_⟩
  have := List.find?_some hget
  simpa using this

/-! ### Core columns through stage 1 and stage 2 -/

theorem readCol_no_marker {rc : RawCol}
    (h : ∀ x ∈ rc.cells, x ≠ RawCell.num REDACTED_DATA_MARKER) :
    ∀ x ∈ (readCol rc).cells, x ≠ Cell.num REDACTED_DATA_MARKER := by
  intro x hx hEq
  subst hEq
  unfold readCol at hx
  split at hx <;> simp only [List.mem_map] at hx
  · obtain ⟨r, hr, hr2⟩ := hx
    exact h r hr (rawCellFloat_eq_num hr2)
  · obtain ⟨r, hr, hr2⟩ := hx
    exact h r hr (rawCellObj_eq_num hr2)

theorem stage1_core_cols {env : Env} {raw : RawTable}
    (hCore : ∀ rc ∈ raw.cols, rc.name ∈ CORE_COLUMNS → rc.name ≠ "Timestamp" →
      ∀ x ∈ rc.cells, x.isNum = true ∧ x ≠ RawCell.num REDACTED_DATA_MARKER) :
    ∀ c ∈ (stage1 env raw).cols, c.name ∈ CORE_COLUMNS → c.name ≠ "Timestamp" →
      c.dtype = Dtype.float ∧
      ∀ x ∈ c.cells, x.isNum = true ∧ x ≠ Cell.num REDACTED_DATA_MARKER := by
  intro c hc hcore hts
  simp only [stage1, parseTimestamps, List.mem_map] at hc
  obtain ⟨a, ha, rfl⟩ := hc
  have hats : a.name ≠ "Timestamp" := by
    rwa [parseF_name] at hts
  rw [if_neg hats] at hcore ⊢
  simp only [read_csv, List.mem_map] at ha
  obtain ⟨rc, hrc, rfl⟩ := ha
  rw [readCol_name] at hcore
  have hrcts : rc.name ≠ "Timestamp" := by
    rw [if_neg hats] at hts
    rwa [readCol_name] at hts
  obtain ⟨hdt, hnum⟩ := readCol_core_float (fun x hx => (hCore rc hrc hcore hrcts x hx).1)
  refine ⟨hdt, fun x hx => ⟨hnum x hx, ?_⟩⟩
  exact readCol_no_marker (fun x hx => (hCore rc hrc hcore hrcts x hx).2) x hx

theorem ts_dtype_stage1 (env : Env) (raw : RawTable) :
    ∀ c ∈ (stage1 env raw).cols, c.name = "Timestamp" → c.dtype = Dtype.datetime := by
  intro c hc hts
  simp only [stage1, parseTimestamps, List.mem_map] at hc
  obtain ⟨a, ha, rfl⟩ := hc
  by_cases h : a.name = "Timestamp"
  · rw [if_pos h]
    rfl
  · rw [if_neg h] at hts ⊢
    exact absurd hts h

theorem ts_dtype_stage2 (env : Env) (raw : RawTable) :
    ∀ c ∈ (stage2 env raw).cols, c.name = "Timestamp" → c.dtype = Dtype.datetime := by
  unfold stage2
  split
  · intro c hc hts
    obtain ⟨a, ha, hname, hdt, _⟩ := dropna_cells_sub c hc
    rw [hdt]
    exact ts_dtype_stage1 env raw a ha (hname.symm.trans hts)
  · exact ts_dtype_stage1 env raw

/-- Claim C7: an input whose only anomaly is K unparseable timestamps
(K at least 1) validates successfully with exactly one warning — the
invalid-timestamp warning — and a table holding the N - K remaining rows. -/
theorem claim7_ts_drop (env : Env) (raw : RawTable) (tc : Col) (K : ℕ)
    (hAl : raw.Aligned)
    (hND : (raw.cols.map RawCol.name).Nodup)
    (hMiss : missingCore (read_csv raw) = [])
    (hget : (stage1 env raw).getCol "Timestamp" = some tc)
    (hK : tc.cells.count Cell.na = K)
    (hK1 : K ≠ 0)
    (hCore : ∀ rc ∈ raw.cols, rc.name ∈ CORE_COLUMNS → rc.name ≠ "Timestamp" →
      ∀ x ∈ rc.cells, x.isNum = true ∧ x ≠ RawCell.num REDACTED_DATA_MARKER) :
    (load_and_validate_data env raw).2.status = "success" ∧
    (load_and_validate_data env raw).2.warnings = [tsWarning] ∧
    ∃ fr, (load_and_validate_data env raw).1 = some fr ∧ fr.nRows = raw.nRows - K := by
  obtain ⟨hmem, htc⟩ := getCol_mem hget
  have hal1 : (stage1 env raw).Aligned := stage1_aligned hAl
  have htst : tsHasNa (stage1 env raw) = true := tsHasNa_true_of hget (by rw [hK]; exact hK1)
  have hs2 : stage2 env raw = (stage1 env raw).dropna ["Timestamp"] := by
    simp [stage2, htst]
  have hnd1 : (stage1 env raw).colNames.Nodup := by
    rw [stage1_colNames, read_csv_colNames]
    exact hND
  have huniq := unique_of_nodup_names hnd1 hmem htc
  have hlen : tc.cells.length = raw.nRows := by
    rw [hal1 tc hmem, stage1_nRows]
  have hrows2 : (stage2 env raw).nRows = raw.nRows - K := by
    rw [hs2, dropna_nRows hal1, mask_count_single hal1 hmem htc huniq, countP_not_isna, hK,
      hlen]
  have H2 : ∀ c ∈ (stage2 env raw).cols, c.name ∈ CORE_COLUMNS →
      (∀ x ∈ c.cells, x.isna = false) ∧
      (c.name ≠ "Timestamp" → c.dtype = Dtype.float ∧
        ∀ x ∈ c.cells, x ≠ Cell.num REDACTED_DATA_MARKER) := by
    intro c hc hcore
    constructor
    · by_cases hts : c.name = "Timestamp"
      · rw [hs2] at hc
        exact dropna_kept hal1 c hc (by simp [hts])
      · rw [hs2] at hc
        obtain ⟨a, ha, hname, _, hsub⟩ := dropna_cells_sub c hc
        have hfacts := stage1_core_cols hCore a ha (hname ▸ hcore) (hname ▸ hts)
        intro x hx
        exact cell_isNum_not_na (hfacts.2 x (hsub x hx)).1
    · intro hts
      rw [hs2] at hc
      obtain ⟨a, ha, hname, hdt, hsub⟩ := dropna_cells_sub c hc
      have hfacts := stage1_core_cols hCore a ha (hname ▸ hcore) (hname ▸ hts)
      exact ⟨hdt.trans hfacts.1, fun x hx => (hfacts.2 x (hsub x hx)).2⟩
  have H4 : ∀ c ∈ (stage4 env raw).cols, c.name ∈ CORE_COLUMNS →
      ∀ x ∈ c.cells, x.isna = false := by
    intro c hc hcore
    unfold stage4 at hc
    simp only [coerceStep, List.mem_map] at hc
    obtain ⟨b, hb, rfl⟩ := hc
    rw [coerceF_name] at hcore
    simp only [redactStep, List.mem_map] at hb
    obtain ⟨a, ha, rfl⟩ := hb
    rw [redactF_name] at hcore
    obtain ⟨hna, hrest⟩ := H2 a ha hcore
    by_cases hts : a.name = "Timestamp"
    · have hdt : a.dtype = Dtype.datetime := ts_dtype_stage2 env raw a ha hts
      have hr : (if a.isRedactable = true then a.redact else a) = a := by
        rw [if_neg]
        simp [Col.isRedactable, hdt]
      rw [hr, coerceF_eq_self (Or.inl hts)]
      exact hna
    · obtain ⟨hflo, hnm⟩ := hrest hts
      have hnored : a.isRedactable = false := by
        have hm : a.hasMarker = false := by
          rw [Col.hasMarker, List.any_eq_false]
          intro x hx
          simp [hnm x hx]
        simp [Col.isRedactable, hm]
      have hr : (if a.isRedactable = true then a.redact else a) = a := by
        rw [if_neg]
        simp [hnored]
      rw [hr, coerceF_eq_self (Or.inr (by rw [hflo]; intro hEq; cases hEq))]
      exact hna
  have hal4 : (stage4 env raw).Aligned := stage4_aligned hAl
  have h5 : stage5 env raw = stage4 env raw := by
    unfold stage5
    exact dropna_id hal4 H4
  have hrows4 : (stage4 env raw).nRows = raw.nRows - K := by
    unfold stage4
    rw [coerce_nRows, redact_nRows, hrows2]
  rw [load_ok_eq hMiss]
  refine ⟨rfl, ?_, stage5 env raw, rfl, ?_⟩
  · simp [htst, h5]
  · rw [h5, hrows4]

/-- Witness for `claim7_ts_drop`: three rows, one unparseable timestamp. -/
theorem claim7_witness :
    (load_and_validate_data env0 rawTsBad).2.status = "success" ∧
    (load_and_validate_data env0 rawTsBad).2.warnings = [tsWarning] ∧
    ∃ fr, (load_and_validate_data env0 rawTsBad).1 = some fr ∧
      fr.nRows = rawTsBad.nRows - 1 :=
  claim7_ts_drop env0 rawTsBad ⟨"Timestamp", .datetime, [.time 3, .na, .time 1]⟩ 1
    (by decide) (by decide) (by decide) (by decide) (by decide) (by decide) (by decide)

/-! ### Redaction (claim C4) -/

theorem redact_cells_no_marker (c : Col) :
    ∀ x ∈ c.redact.cells, x ≠ Cell.num REDACTED_DATA_MARKER := by
  intro x hx
  simp only [Col.redact, List.mem_map] at hx
  obtain ⟨y, _, rfl⟩ := hx
  by_cases hy : (y == Cell.num REDACTED_DATA_MARKER) = true
  · rw [if_pos hy]
    intro hEq
    cases hEq
  · rw [if_neg hy]
    simpa using hy

theorem toNumericCell_no_marker {x : Cell} (h : x ≠ Cell.num REDACTED_DATA_MARKER) :
    toNumericCell x ≠ Cell.num REDACTED_DATA_MARKER := by
  cases x <;> simp_all [toNumericCell]

/-- Claim C4 as stated is false on the code: in a mixed text/number column
the token -999.0 is a cell equal to the sentinel, yet the column is
object-inferred, the redaction step skips it, and the later numeric
coercion puts the number -999.0 into the returned table while the
redacted-columns list stays empty. -/
theorem claim4_counterexample :
    RawCell.num REDACTED_DATA_MARKER ∈
      (⟨"GNC_Mode", [.text "NAV", .num (-999)]⟩ : RawCol).cells ∧
    (⟨"GNC_Mode", [.text "NAV", .num (-999)]⟩ : RawCol) ∈ rawMixed.cols ∧
    (load_and_validate_data env0 rawMixed).2.redacted_cols_found = [] ∧
    (load_and_validate_data env0 rawMixed).1 = some
      ⟨[⟨"Timestamp", .datetime, [.time 3, .time 4]⟩,
        ⟨"POS_Latitude_deg", .float, [.num 1, .num 2]⟩,
        ⟨"POS_Longitude_deg", .float, [.num 3, .num 4]⟩,
        ⟨"POS_Altitude_ft", .float, [.num 5, .num 6]⟩,
        ⟨"GNC_Mode", .float, [.na, .num (-999)]⟩]⟩ := by
  decide

/-- Claim C4, amended: for a fully numeric (numeric-or-empty) non-Timestamp
column containing the sentinel, on an input whose timestamps all parse, the
report lists the column exactly once among redacted columns and no cell of
that column in the returned table equals the sentinel. -/
theorem claim4_redaction (env : Env) (raw : RawTable) (rc : RawCol) (fr : Frame)
    (hND : (raw.cols.map RawCol.name).Nodup)
    (hrc : rc ∈ raw.cols)
    (hts : rc.name ≠ "Timestamp")
    (hnum : ∀ x ∈ rc.cells, x.numLike = true)
    (hsent : RawCell.num REDACTED_DATA_MARKER ∈ rc.cells)
    (hTsOk : tsHasNa (stage1 env raw) = false)
    (hfr : (load_and_validate_data env raw).1 = some fr) :
    (load_and_validate_data env raw).2.redacted_cols_found.count rc.name = 1 ∧
    ∀ c ∈ fr.cols, c.name = rc.name →
      ∀ x ∈ c.cells, x ≠ Cell.num REDACTED_DATA_MARKER := by
  by_cases hMiss : missingCore (read_csv raw) = []
  case neg =>
    rw [load_missing_eq hMiss] at hfr
    cases hfr
  case pos =>
  have hfr5 : fr = stage5 env raw := by
    rw [load_ok_eq hMiss] at hfr
    exact (Option.some.inj hfr).symm
  subst hfr5
  have hs2 : stage2 env raw = stage1 env raw := by
    simp [stage2, hTsOk]
  -- the column as read
  have hall : rc.cells.all RawCell.numLike = true := List.all_eq_true.mpr hnum
  have hread : readCol rc = ⟨rc.name, .float, rc.cells.map rawCellFloat⟩ := by
    unfold readCol
    rw [if_pos hall]
  have hmark : (readCol rc).hasMarker = true := by
    rw [hread, Col.hasMarker, List.any_eq_true]
    exact ⟨Cell.num REDACTED_DATA_MARKER, List.mem_map.mpr ⟨_, hsent, rfl⟩, by simp⟩
  have hredable : (readCol rc).isRedactable = true := by
    rw [Col.isRedactable, hmark, hread]
    rfl
  -- the column survives parsing unchanged and is a member of stage2
  have hmem1 : readCol rc ∈ (stage1 env raw).cols := by
    simp only [stage1, parseTimestamps, List.mem_map]
    refine ⟨readCol rc, ?_, ?_⟩
    · exact List.mem_map.mpr ⟨rc, hrc, rfl⟩
    · rw [if_neg (by rw [readCol_name]; exact hts)]
  have hnd2 : (stage2 env raw).colNames.Nodup := by
    rw [hs2, stage1_colNames, read_csv_colNames]
    exact hND
  have hmem2 : readCol rc ∈ (stage2 env raw).cols := by
    rw [hs2]
    exact hmem1
  -- the redacted report lists rc.name exactly once
  have hcount :
      (((stage2 env raw).cols.filter Col.isRedactable).map Col.name).count rc.name = 1 := by
    have hsub : (((stage2 env raw).cols.filter Col.isRedactable).map Col.name).Sublist
        (stage2 env raw).colNames :=
      (List.filter_sublist _).map Col.name
    have hle : (((stage2 env raw).cols.filter Col.isRedactable).map Col.name).count rc.name
        ≤ ((stage2 env raw).colNames).count rc.name := hsub.count_le rc.name
    have hone : ((stage2 env raw).colNames).count rc.name ≤ 1 :=
      List.nodup_iff_count_le_one.mp hnd2 rc.name
    have hpos : 0 < (((stage2 env raw).cols.filter Col.isRedactable).map Col.name).count
        rc.name := by
      rw [List.count_pos_iff]
      refine List.mem_map.mpr ⟨readCol rc, ?_, readCol_name rc⟩
      rw [List.mem_filter]
      exact ⟨hmem2, hredable⟩
    omega
  constructor
  · rw [load_ok_eq hMiss]
    exact hcount
  · -- no sentinel remains in any column named rc.name
    have huniq2 : ∀ c ∈ (stage2 env raw).cols, c.name = rc.name → c = readCol rc := by
      intro c hc hcn
      exact List.inj_on_of_nodup_map hnd2 hc hmem2 (by rw [hcn, readCol_name])
    have H4 : ∀ c ∈ (stage4 env raw).cols, c.name = rc.name →
        ∀ x ∈ c.cells, x ≠ Cell.num REDACTED_DATA_MARKER := by
      intro c hc hcn
      unfold stage4 at hc
      simp only [coerceStep, List.mem_map] at hc
      obtain ⟨b, hb, rfl⟩ := hc
      rw [coerceF_name] at hcn
      simp only [redactStep, List.mem_map] at hb
      obtain ⟨a, ha, rfl⟩ := hb
      rw [redactF_name] at hcn
      have haeq : a = readCol rc := huniq2 a ha hcn
      subst haeq
      rw [if_pos hredable]
      -- after redaction no marker; coercion cannot reintroduce it
      have hmid := redact_cells_no_marker (readCol rc)
      by_cases hco : (((readCol rc).redact.name != "Timestamp")
          && ((readCol rc).redact.dtype == Dtype.obj)) = true
      · rw [if_pos hco]
        intro x hx
        simp only [List.mem_map] at hx
        obtain ⟨y, hy, rfl⟩ := hx
        exact toNumericCell_no_marker (hmid y hy)
      · rw [if_neg hco]
        exact hmid
    intro c hc hcn x hx
    have hc' : c ∈ ((stage4 env raw).dropna CORE_COLUMNS).cols := hc
    obtain ⟨a, ha, hname, _, hsub⟩ := dropna_cells_sub c hc'
    exact H4 a ha (hname.symm.trans hcn) x (hsub x hx)

/-- Witness for `claim4_redaction` on a numeric subsystem column holding
the sentinel. -/
theorem claim4_witness :
    (load_and_validate_data env0 rawSentinel).2.redacted_cols_found.count "GNC_Roll_deg" = 1 ∧
    ∀ c ∈ (⟨[⟨"Timestamp", .datetime, [.time 3, .time 4]⟩,
        ⟨"POS_Latitude_deg", .float, [.num 1, .num 2]⟩,
        ⟨"POS_Longitude_deg", .float, [.num 3, .num 4]⟩,
        ⟨"POS_Altitude_ft", .float, [.num 5, .num 6]⟩,
        ⟨"GNC_Roll_deg", .float, [.na, .num 8]⟩]⟩ : Frame).cols,
      c.name = "GNC_Roll_deg" → ∀ x ∈ c.cells, x ≠ Cell.num REDACTED_DATA_MARKER :=
  claim4_redaction env0 rawSentinel ⟨"GNC_Roll_deg", [.num (-999), .num 8]⟩ _
    (by decide) (by decide) (by decide) (by decide) (by decide) (by decide) (by decide)

/-! ### Textual columns (claim C8) -/

/-- Claim C8 as stated is false on the code: the all-text payload status
column does not remain textual — after numeric coercion every one of its
cells is the missing marker and the column is float-typed. -/
theorem claim8_counterexample :
    (∀ x ∈ (⟨"PL_GMTI_Status", [.text "ACTIVE", .text "SEARCHING"]⟩ : RawCol).cells,
      x.isText = true) ∧
    (⟨"PL_GMTI_Status", [.text "ACTIVE", .text "SEARCHING"]⟩ : RawCol) ∈ rawTextCol.cols ∧
    (load_and_validate_data env0 rawTextCol).2.status = "success" ∧
    (load_and_validate_data env0 rawTextCol).1 = some
      ⟨[⟨"Timestamp", .datetime, [.time 3, .time 4]⟩,
        ⟨"POS_Latitude_deg", .float, [.num 1, .num 2]⟩,
        ⟨"POS_Longitude_deg", .float, [.num 3, .num 4]⟩,
        ⟨"POS_Altitude_ft", .float, [.num 5, .num 6]⟩,
        ⟨"PL_GMTI_Status", .float, [.na, .na]⟩]⟩ := by
  decide

/-- Claim C8, amended: an inherently textual non-Timestamp column is
numerically coerced like every other object column; in the returned table
it is float-typed and every cell of it is the missing marker — its text is
not preserved. -/
theorem claim8_text_col (env : Env) (raw : RawTable) (rc : RawCol) (fr : Frame)
    (hND : (raw.cols.map RawCol.name).Nodup)
    (hrc : rc ∈ raw.cols)
    (hts : rc.name ≠ "Timestamp")
    (htext : ∀ x ∈ rc.cells, x.isText = true)
    (hfr : (load_and_validate_data env raw).1 = some fr) :
    ∀ c ∈ fr.cols, c.name = rc.name →
      c.dtype = Dtype.float ∧ ∀ x ∈ c.cells, x = Cell.na := by
  by_cases hMiss : missingCore (read_csv raw) = []
  case neg =>
    rw [load_missing_eq hMiss] at hfr
    cases hfr
  case pos =>
  have hfr5 : fr = stage5 env raw := by
    rw [load_ok_eq hMiss] at hfr
    exact (Option.some.inj hfr).symm
  subst hfr5
  -- the invariant: object column of strings, or an empty float column
  have hINV0 : ∀ c ∈ (read_csv raw).cols, c.name = rc.name →
      (c.dtype = Dtype.obj ∧ ∀ x ∈ c.cells, ∃ s, x = Cell.str s) ∨
      (c.dtype = Dtype.float ∧ c.cells = []) := by
    intro c hc hcn
    simp only [read_csv, List.mem_map] at hc
    obtain ⟨a, ha, rfl⟩ := hc
    have haeq : a = rc := by
      refine List.inj_on_of_nodup_map hND ha hrc ?_
      rw [← readCol_name a, hcn]
    subst haeq
    rcases hcells : a.cells with _ | ⟨r, rs⟩
    · right
      have hr : readCol a = ⟨a.name, .float, []⟩ := by
        unfold readCol
        rw [hcells]
        rfl
      rw [hr]
      exact ⟨rfl, rfl⟩
    · left
      have hrmem : r ∈ a.cells := by
        rw [hcells]
        exact List.mem_cons_self _ _
      have hnotall : a.cells.all RawCell.numLike = false := by
        rw [List.all_eq_false]
        refine ⟨r, hrmem, ?_⟩
        have := htext r hrmem
        cases r <;> simp_all [RawCell.isText, RawCell.numLike]
      unfold readCol
      rw [if_neg (by simp [hnotall])]
      refine ⟨rfl, ?_⟩
      intro x hx
      simp only [List.mem_map] at hx
      obtain ⟨y, hy, rfl⟩ := hx
      have := htext y hy
      cases y <;> simp_all [RawCell.isText, rawCellObj]
  have hINV1 : ∀ c ∈ (stage1 env raw).cols, c.name = rc.name →
      (c.dtype = Dtype.obj ∧ ∀ x ∈ c.cells, ∃ s, x = Cell.str s) ∨
      (c.dtype = Dtype.float ∧ c.cells = []) := by
    intro c hc hcn
    simp only [stage1, parseTimestamps, List.mem_map] at hc
    obtain ⟨a, ha, rfl⟩ := hc
    rw [parseF_name] at hcn
    rw [if_neg (fun h => hts (hcn.symm.trans h))]
    exact hINV0 a ha hcn
  have hINV2 : ∀ c ∈ (stage2 env raw).cols, c.name = rc.name →
      (c.dtype = Dtype.obj ∧ ∀ x ∈ c.cells, ∃ s, x = Cell.str s) ∨
      (c.dtype = Dtype.float ∧ c.cells = []) := by
    unfold stage2
    split
    · intro c hc hcn
      obtain ⟨a, ha, hname, hdt, hsubm⟩ := dropna_cells_sub c hc
      rcases hINV1 a ha (hname.symm.trans hcn) with ⟨hobj, hstr⟩ | ⟨hflo, hnil⟩
      · exact Or.inl ⟨hdt.trans hobj, fun x hx => hstr x (hsubm x hx)⟩
      · refine Or.inr ⟨hdt.trans hflo, ?_⟩
        rw [List.eq_nil_iff_forall_not_mem]
        intro x hx
        have hmem := hsubm x hx
        rw [hnil] at hmem
        cases hmem
    · exact hINV1
  have hINV3 : ∀ c ∈ (redactStep (stage2 env raw)).1.cols, c.name = rc.name →
      (c.dtype = Dtype.obj ∧ ∀ x ∈ c.cells, ∃ s, x = Cell.str s) ∨
      (c.dtype = Dtype.float ∧ c.cells = []) := by
    intro c hc hcn
    simp only [redactStep, List.mem_map] at hc
    obtain ⟨a, ha, rfl⟩ := hc
    rw [redactF_name] at hcn
    have hinv := hINV2 a ha hcn
    have hself : (if a.isRedactable = true then a.redact else a) = a := by
      rcases hinv with ⟨hobj, _⟩ | ⟨_, hnil⟩
      · rw [if_neg]
        simp [Col.isRedactable, hobj]
      · rw [if_neg]
        simp [Col.isRedactable, Col.hasMarker, hnil]
    rw [hself]
    exact hinv
  have hFIN : ∀ c ∈ (stage4 env raw).cols, c.name = rc.name →
      c.dtype = Dtype.float ∧ ∀ x ∈ c.cells, x = Cell.na := by
    intro c hc hcn
    unfold stage4 at hc
    simp only [coerceStep, List.mem_map] at hc
    obtain ⟨b, hb, rfl⟩ := hc
    rw [coerceF_name] at hcn
    rcases hINV3 b hb hcn with ⟨hobj, hstr⟩ | ⟨hflo, hnil⟩
    · rw [if_pos (by simp [hcn, hobj, hts])]
      refine ⟨rfl, ?_⟩
      intro x hx
      simp only [List.mem_map] at hx
      obtain ⟨y, hy, rfl⟩ := hx
      obtain ⟨s, rfl⟩ := hstr y hy
      rfl
    · rw [coerceF_eq_self (Or.inr (by rw [hflo]; intro h; cases h))]
      refine ⟨hflo, ?_⟩
      intro x hx
      rw [hnil] at hx
      cases hx
  intro c hc hcn
  have hc' : c ∈ ((stage4 env raw).dropna CORE_COLUMNS).cols := hc
  obtain ⟨a, ha, hname, hdt, hsubm⟩ := dropna_cells_sub c hc'
  obtain ⟨hflo, hna⟩ := hFIN a ha (hname.symm.trans hcn)
  exact ⟨hdt.trans hflo, fun x hx => hna x (hsubm x hx)⟩

/-- Witness for `claim8_text_col` on a concrete all-text payload column. -/
theorem claim8_witness :
    (⟨"PL_GMTI_Status", .float, [.na, .na]⟩ : Col).dtype = Dtype.float ∧
    ∀ x ∈ (⟨"PL_GMTI_Status", .float, [.na, .na]⟩ : Col).cells, x = Cell.na :=
  claim8_text_col env0 rawTextCol ⟨"PL_GMTI_Status", [.text "ACTIVE", .text "SEARCHING"]⟩
    ⟨[⟨"Timestamp", .datetime, [.time 3, .time 4]⟩,
      ⟨"POS_Latitude_deg", .float, [.num 1, .num 2]⟩,
      ⟨"POS_Longitude_deg", .float, [.num 3, .num 4]⟩,
      ⟨"POS_Altitude_ft", .float, [.num 5, .num 6]⟩,
      ⟨"PL_GMTI_Status", .float, [.na, .na]⟩]⟩
    (by decide) (by decide) (by decide) (by decide) (by decide)
    ⟨"PL_GMTI_Status", .float, [.na, .na]⟩ (by decide) (by decide)

/-! ### Serialization and re-validation (claim C9) -/

theorem serialize_names (env : Env) (fr : Frame) :
    (fr.serialize env).cols.map RawCol.name = fr.colNames := by
  simp only [Frame.serialize, Frame.colNames, List.map_map]
  rfl

theorem serialize_nRows (env : Env) (fr : Frame) : (fr.serialize env).nRows = fr.nRows := by
  rcases hfr : fr.cols with _ | ⟨c, cs⟩
  · simp [Frame.serialize, RawTable.nRows, Frame.nRows, hfr]
  · simp [Frame.serialize, RawTable.nRows, Frame.nRows, hfr]

theorem serialize_aligned {env : Env} {fr : Frame} (hAl : fr.Aligned) :
    (fr.serialize env).Aligned := by
  intro c hc
  rw [serialize_nRows]
  simp only [Frame.serialize, List.mem_map] at hc
  obtain ⟨a, ha, rfl⟩ := hc
  simpa using hAl a ha

theorem missingCore_nil_iff {fr : Frame} :
    missingCore fr = [] ↔ ∀ cn ∈ CORE_COLUMNS, cn ∈ fr.colNames := by
  rw [missingCore, List.filter_eq_nil_iff]
  constructor
  · intro h cn hcn
    have := h cn hcn
    simpa using this
  · intro h cn hcn
    simpa using h cn hcn

theorem env0_roundtrip : ∀ t, env0.tsOfStr (env0.strOfTs t) = some t := by
  intro t
  show (if (List.replicate t 'T').all (fun c => c == 'T') then
    some (String.length ⟨List.replicate t 'T'⟩) else none) = some t
  rw [if_pos]
  · simp [String.length]
  · rw [List.all_eq_true]
    intro c hc
    rw [List.eq_of_mem_replicate hc]
    rfl

/-! Numeric-or-missing cells for non-Timestamp columns of the output. -/

theorem ntd_read (raw : RawTable) : ∀ c ∈ (read_csv raw).cols,
    (c.dtype = Dtype.float ∨ c.dtype = Dtype.obj) ∧
    (c.dtype = Dtype.float → ∀ x ∈ c.cells, (x.isNum || x.isna) = true) := by
  intro c hc
  simp only [read_csv, List.mem_map] at hc
  obtain ⟨rc, hrc, rfl⟩ := hc
  unfold readCol
  split
  · refine ⟨Or.inl rfl, fun _ x hx => ?_⟩
    simp only [List.mem_map] at hx
    obtain ⟨r, _, rfl⟩ := hx
    cases r <;> rfl
  · exact ⟨Or.inr rfl, fun h => absurd h (by simp)⟩

theorem ntd_stage1 (env : Env) (raw : RawTable) :
    ∀ c ∈ (stage1 env raw).cols, c.name ≠ "Timestamp" →
      (c.dtype = Dtype.float ∨ c.dtype = Dtype.obj) ∧
      (c.dtype = Dtype.float → ∀ x ∈ c.cells, (x.isNum || x.isna) = true) := by
  intro c hc hts
  simp only [stage1, parseTimestamps, List.mem_map] at hc
  obtain ⟨a, ha, rfl⟩ := hc
  rw [parseF_name] at hts
  rw [if_neg hts]
  exact ntd_read raw a ha

theorem ntd_stage2 (env : Env) (raw : RawTable) :
    ∀ c ∈ (stage2 env raw).cols, c.name ≠ "Timestamp" →
      (c.dtype = Dtype.float ∨ c.dtype = Dtype.obj) ∧
      (c.dtype = Dtype.float → ∀ x ∈ c.cells, (x.isNum || x.isna) = true) := by
  unfold stage2
  split
  · intro c hc hts
    obtain ⟨a, ha, hname, hdt, hsubm⟩ := dropna_cells_sub c hc
    obtain ⟨hd, hnm⟩ := ntd_stage1 env raw a ha (fun h => hts (hname.trans h))
    refine ⟨by rw [hdt]; exact hd, fun hf x hx => ?_⟩
    exact hnm (hdt.symm.trans hf) x (hsubm x hx)
  · exact ntd_stage1 env raw

theorem nt_stage4 (env : Env) (raw : RawTable) :
    ∀ c ∈ (stage4 env raw).cols, c.name ≠ "Timestamp" →
      ∀ x ∈ c.cells, (x.isNum || x.isna) = true := by
  intro c hc hts
  unfold stage4 at hc
  simp only [coerceStep, List.mem_map] at hc
  obtain ⟨b, hb, rfl⟩ := hc
  rw [coerceF_name] at hts
  simp only [redactStep, List.mem_map] at hb
  obtain ⟨a, ha, rfl⟩ := hb
  rw [redactF_name] at hts
  obtain ⟨hd, hnm⟩ := ntd_stage2 env raw a ha hts
  have hbdt := redactF_dtype a
  have hbnm : (if a.isRedactable = true then a.redact else a).dtype = Dtype.float →
      ∀ x ∈ (if a.isRedactable = true then a.redact else a).cells,
        (x.isNum || x.isna) = true := by
    intro hf x hx
    have haf : a.dtype = Dtype.float := hbdt.symm.trans hf
    by_cases hr : a.isRedactable = true
    · rw [if_pos hr] at hx
      simp only [Col.redact, List.mem_map] at hx
      obtain ⟨y, hy, rfl⟩ := hx
      have hy2 := hnm haf y hy
      by_cases hm : (y == Cell.num REDACTED_DATA_MARKER) = true
      · rw [if_pos hm]
        rfl
      · rw [if_neg hm]
        exact hy2
    · rw [if_neg hr] at hx
      exact hnm haf x hx
  by_cases hco : ((if a.isRedactable = true then a.redact else a).name != "Timestamp"
      && (if a.isRedactable = true then a.redact else a).dtype == Dtype.obj) = true
  · rw [if_pos hco]
    intro x hx
    simp only [List.mem_map] at hx
    obtain ⟨y, _, rfl⟩ := hx
    cases y <;> rfl
  · rw [if_neg hco]
    have hbobj : (if a.isRedactable = true then a.redact else a).dtype ≠ Dtype.obj := by
      intro hEq
      apply hco
      rw [hEq]
      rw [redactF_name]
      simp [hts]
    have hbf : (if a.isRedactable = true then a.redact else a).dtype = Dtype.float := by
      rw [hbdt] at hbobj ⊢
      rcases hd with h | h
      · exact h
      · exact absurd h hbobj
    exact hbnm hbf

theorem nt_stage5 (env : Env) (raw : RawTable) :
    ∀ c ∈ (stage5 env raw).cols, c.name ≠ "Timestamp" →
      ∀ x ∈ c.cells, (x.isNum || x.isna) = true := by
  intro c hc hts
  have hc' : c ∈ ((stage4 env raw).dropna CORE_COLUMNS).cols := hc
  obtain ⟨a, ha, hname, _, hsubm⟩ := dropna_cells_sub c hc'
  exact fun x hx => nt_stage4 env raw a ha (fun h => hts (hname.trans h)) x (hsubm x hx)

/-- Claim C9 as stated is false: the parenthetical "no cell of the first
output equals the sentinel" fails for a mixed text/number column, and
re-running validation on the re-serialized output then redacts that column
(a nonempty redacted-columns list). -/
theorem claim9_counterexample :
    (load_and_validate_data env0 rawMixed).2.status = "success" ∧
    (load_and_validate_data env0 (Frame.serialize env0
        ((load_and_validate_data env0 rawMixed).1.getD ⟨[]⟩))).2.redacted_cols_found
      = ["GNC_Mode"] := by
  decide

/-- Claim C9, amended: if additionally no cell of the first successful
output equals the sentinel (which can fail only for text-coerced mixed
columns), re-running validation on the re-serialized output succeeds with
no warnings, an empty redacted-columns list (so no redactions and no
dropped rows), and the same row count. -/
theorem claim9_idempotent (env : Env) (raw : RawTable) (fr : Frame)
    (hAl : raw.Aligned)
    (hfr : (load_and_validate_data env raw).1 = some fr)
    (hRT : ∀ t, env.tsOfStr (env.strOfTs t) = some t)
    (hNoSent : ∀ c ∈ fr.cols, ∀ x ∈ c.cells, x ≠ Cell.num REDACTED_DATA_MARKER) :
    (load_and_validate_data env (fr.serialize env)).2.status = "success" ∧
    (load_and_validate_data env (fr.serialize env)).2.warnings = [] ∧
    (load_and_validate_data env (fr.serialize env)).2.redacted_cols_found = [] ∧
    ∃ fr₂, (load_and_validate_data env (fr.serialize env)).1 = some fr₂ ∧
      fr₂.nRows = fr.nRows := by
  by_cases hMiss : missingCore (read_csv raw) = []
  case neg =>
    rw [load_missing_eq hMiss] at hfr
    cases hfr
  case pos =>
  have hfr5 : fr = stage5 env raw := by
    rw [load_ok_eq hMiss] at hfr
    exact (Option.some.inj hfr).symm
  subst hfr5
  have hal5 : (stage5 env raw).Aligned := dropna_aligned (stage4_aligned hAl)
  have hcore5 : ∀ c ∈ (stage5 env raw).cols, c.name ∈ CORE_COLUMNS →
      ∀ x ∈ c.cells, x.isna = false := by
    intro c hc
    exact dropna_kept (stage4_aligned hAl) c hc
  have hts5 : ∀ c ∈ (stage5 env raw).cols, c.name = "Timestamp" →
      ∀ x ∈ c.cells, ∃ t, x = Cell.time t := by
    intro c hc hts x hx
    have h1 := ts_tna_stage5 env raw c hc hts x hx
    have h2 := hcore5 c hc (by rw [hts]; simp [CORE_COLUMNS]) x hx
    cases x <;> simp_all [Cell.isTime, Cell.isna]
  have hnt5 := nt_stage5 env raw
  have hnames5 : ∀ cn ∈ CORE_COLUMNS, cn ∈ (stage5 env raw).colNames := by
    intro cn hcn
    rw [stage5_colNames]
    by_contra hnot
    have hbad : cn ∈ missingCore (read_csv raw) := mem_missingCore.mpr ⟨hcn, hnot⟩
    rw [hMiss] at hbad
    cases hbad
  set raw₂ := (stage5 env raw).serialize env with hraw₂
  have hAl₂ : raw₂.Aligned := serialize_aligned hal5
  have hMiss₂ : missingCore (read_csv raw₂) = [] := by
    rw [missingCore_nil_iff]
    intro cn hcn
    rw [read_csv_colNames, hraw₂, serialize_names]
    exact hnames5 cn hcn
  have hSent₂ : ∀ rc ∈ raw₂.cols, ∀ x ∈ rc.cells, x ≠ RawCell.num REDACTED_DATA_MARKER := by
    intro rc hrc x hx
    rw [hraw₂] at hrc
    simp only [Frame.serialize, List.mem_map] at hrc
    obtain ⟨c, hc, rfl⟩ := hrc
    simp only [List.mem_map] at hx
    obtain ⟨y, hy, rfl⟩ := hx
    have := hNoSent c hc y hy
    cases y <;> simp_all [serializeCell]
  have hCore₂ : ∀ rc ∈ raw₂.cols, rc.name ∈ CORE_COLUMNS → rc.name ≠ "Timestamp" →
      ∀ x ∈ rc.cells, x.isNum = true := by
    intro rc hrc hcore hts x hx
    rw [hraw₂] at hrc
    simp only [Frame.serialize, List.mem_map] at hrc
    obtain ⟨c, hc, rfl⟩ := hrc
    simp only [List.mem_map] at hx
    obtain ⟨y, hy, rfl⟩ := hx
    have hna := hcore5 c hc hcore y hy
    have hnn := hnt5 c hc hts y hy
    cases y <;> simp_all [serializeCell, RawCell.isNum, Cell.isna, Cell.isNum]
  have hTs₂ : ∀ c ∈ (stage1 env raw₂).cols, c.name = "Timestamp" →
      ∀ x ∈ c.cells, x.isna = false := by
    intro c hc htsn x hx
    simp only [stage1, parseTimestamps, List.mem_map] at hc
    obtain ⟨a, ha, rfl⟩ := hc
    rw [parseF_name] at htsn
    rw [if_pos htsn] at hx
    simp only [toDatetimeCol, List.mem_map] at hx
    obtain ⟨y, hy, rfl⟩ := hx
    simp only [read_csv, List.mem_map] at ha
    obtain ⟨rc, hrc, rfl⟩ := ha
    rw [readCol_name] at htsn
    rw [hraw₂] at hrc
    simp only [Frame.serialize, List.mem_map] at hrc
    obtain ⟨c₀, hc₀, rfl⟩ := hrc
    have htime := hts5 c₀ hc₀ htsn
    rcases hcs : c₀.cells with _ | ⟨x₀, xs⟩
    · have hnil : (readCol ⟨c₀.name, c₀.cells.map (serializeCell env)⟩).cells = [] := by
        rw [hcs]
        rfl
      rw [hnil] at hy
      cases hy
    · obtain ⟨t₀, hx₀eq⟩ := htime x₀ (by rw [hcs]; exact List.mem_cons_self _ _)
      have hnotall : ((c₀.cells.map (serializeCell env)).all RawCell.numLike) = false := by
        rw [List.all_eq_false]
        refine ⟨serializeCell env x₀,
          List.mem_map.mpr ⟨x₀, by rw [hcs]; exact List.mem_cons_self _ _, rfl⟩, ?_⟩
        rw [hx₀eq]
        simp [serializeCell, RawCell.numLike]
      unfold readCol at hy
      rw [if_neg (by simp [hnotall])] at hy
      simp only [List.mem_map] at hy
      obtain ⟨x₁, hx₁, rfl⟩ := hy
      obtain ⟨x₂, hx₂, rfl⟩ := hx₁
      obtain ⟨t, rfl⟩ := htime x₂ hx₂
      simp [serializeCell, rawCellObj, toDatetimeCell, hRT t, Cell.isna]
  obtain ⟨hst, hw, hred, fr₂, hfr₂, hrows₂⟩ :=
    load_wellformed env raw₂ hAl₂ hMiss₂ hTs₂ hCore₂ hSent₂
  refine ⟨hst, hw, hred, fr₂, hfr₂, ?_⟩
  rw [hrows₂, hraw₂]
  exact serialize_nRows env (stage5 env raw)

/-- Witness for `claim9_idempotent` on a concrete sentinel-free output. -/
theorem claim9_witness :
    (load_and_validate_data env0 (frWF.serialize env0)).2.status = "success" ∧
    (load_and_validate_data env0 (frWF.serialize env0)).2.warnings = [] ∧
    (load_and_validate_data env0 (frWF.serialize env0)).2.redacted_cols_found = [] ∧
    ∃ fr₂, (load_and_validate_data env0 (frWF.serialize env0)).1 = some fr₂ ∧
      fr₂.nRows = frWF.nRows :=
  claim9_idempotent env0 rawWF frWF (by decide) (by decide) env0_roundtrip (by decide)

end FlightData
